import Mathlib

/-!
Chatroom frontend (`frontend/main.go`).

A shallow embedding of the frontend entry point of the chatroom server:

* the two middlewares `checkNickMiddleware` and `corsMiddleware`, over a model
  of the gin request context (handler chain, index, abort, response writer);
* the routing table that `main` registers, over a model of gin router groups;
* the lifecycle of `main` (queue construction, server goroutine, storage root
  creation, stop signal, shutdown, deferred calls) as a step relation on a
  process state, with one scheduler action per goroutine step or outside event.
-/

namespace Chatroom

/-! ## HTTP headers, requests and the response writer -/

/-- A header map (`http.Header`): canonical key to list of values.  The keys
used by the program are already in canonical form. -/
structure Header where
  entries : List (String × List String) := []
  deriving DecidableEq, Repr

/-- All values stored under `key` (a missing key reads as the empty list). -/
def Header.Values (h : Header) (key : String) : List String :=
  match h.entries.lookup key with
  | some vs => vs
  | none => []

/-- `Header.Get`: the first value stored under `key`, or the empty string. -/
def Header.Get (h : Header) (key : String) : String :=
  match h.Values key with
  | v :: _ => v
  | [] => ""

/-- `Header.Set`: replace whatever is stored under `key` by the single value. -/
def Header.Set (h : Header) (key value : String) : Header :=
  ⟨(key, [value]) :: h.entries.filter (fun kv => kv.1 != key)⟩

/-- The part of `http.Request` the frontend reads.  `cookies` holds, per cookie
name, the value as `gin.Context.Cookie` hands it out (after unescaping). -/
structure Request where
  method : String
  path : String
  header : Header := {}
  cookies : List (String × String) := []
  deriving DecidableEq, Repr

/-- Error values of the HTTP layer that the frontend can observe. -/
inductive HttpError
  | ErrNoCookie
  | ErrServerClosed
  | DeadlineExceeded
  | other (msg : String)
  deriving DecidableEq, Repr

/-- `Request.Cookie(name)` as seen through `gin.Context.Cookie`: the first
cookie of that name, or `ErrNoCookie`. -/
def Request.Cookie (r : Request) (name : String) : Except HttpError String :=
  if name = "" then .error .ErrNoCookie
  else match r.cookies.lookup name with
    | some v => .ok v
    | none => .error .ErrNoCookie

/-- A JSON object with string fields (`gin.H` as used by the frontend). -/
abbrev H := List (String × String)

/-- One chunk written to a response body. -/
inductive Body
  | json (obj : H)
  | text (s : String)
  deriving DecidableEq, Repr

/-- The response writer of gin: status (200 until set), whether the header has
been written, the response header and the chunks written to the body. -/
structure ResponseWriter where
  status : Nat := 200
  written : Bool := false
  header : Header := {}
  body : List Body := []
  deriving DecidableEq, Repr

/-- `responseWriter.WriteHeader`: the status changes only while nothing has
been written yet. -/
def ResponseWriter.WriteHeader (w : ResponseWriter) (code : Nat) : ResponseWriter :=
  if 0 < code ∧ w.status ≠ code then
    if w.written then w else { w with status := code }
  else w

/-- `responseWriter.WriteHeaderNow`. -/
def ResponseWriter.WriteHeaderNow (w : ResponseWriter) : ResponseWriter :=
  if w.written then w else { w with written := true }

/-- `responseWriter.Write`: commits the header, then appends to the body. -/
def ResponseWriter.Write (w : ResponseWriter) (data : Body) : ResponseWriter :=
  let w1 := w.WriteHeaderNow
  { w1 with body := w1.body ++ [data] }

/-- `bodyAllowedForStatus` of gin. -/
def bodyAllowedForStatus (status : Nat) : Bool :=
  if 100 ≤ status ∧ status ≤ 199 then false
  else if status = 204 then false
  else if status = 304 then false
  else true

/-! ## The gin context and handler chains -/

/-- The methods of the chat handler that `main` registers as route handlers. -/
inductive ChatMethod
  | GetAuthView
  | GetRoomView
  | GetRoomsListView
  | GetRoomsLastMessage
  | GetMessagesFile
  | SendMessage
  | ClearStdin
  deriving DecidableEq, Repr

/-- The handler functions that occur in the chains of this program. -/
inductive HandlerFunc
  | logger
  | recovery
  | cors
  | checkNick
  | chat (m : ChatMethod)
  deriving DecidableEq, Repr

/-- `abortIndex` of gin (`math.MaxInt8 >> 1`). -/
def abortIndex : Int := 63

/-- The per-request context of gin.  `ran` is a ghost field: the handlers that
have been invoked so far, in order. -/
structure Context where
  request : Request
  writer : ResponseWriter := {}
  handlers : List HandlerFunc := []
  index : Int := -1
  ran : List HandlerFunc := []
  deriving DecidableEq, Repr

/-- `Context.Cookie`. -/
def Context.Cookie (c : Context) (name : String) : Except HttpError String :=
  c.request.Cookie name

/-- `Context.Abort`. -/
def Context.Abort (c : Context) : Context :=
  { c with index := abortIndex }

/-- `Context.IsAborted`. -/
def Context.IsAborted (c : Context) : Bool :=
  decide (abortIndex ≤ c.index)

/-- `Context.Status`. -/
def Context.Status (c : Context) (code : Nat) : Context :=
  { c with writer := c.writer.WriteHeader code }

/-- `Context.AbortWithStatus`. -/
def Context.AbortWithStatus (c : Context) (code : Nat) : Context :=
  let c1 := c.Status code
  let c2 := { c1 with writer := c1.writer.WriteHeaderNow }
  c2.Abort

/-- `Context.JSON`: set the status, set the JSON content type unless a content
type is already there, and write the object when the status allows a body. -/
def Context.JSON (c : Context) (code : Nat) (obj : H) : Context :=
  let w := c.writer.WriteHeader code
  let w1 : ResponseWriter :=
    if w.header.Values "Content-Type" = [] then
      { w with header := w.header.Set "Content-Type" "application/json; charset=utf-8" }
    else w
  if bodyAllowedForStatus code then { c with writer := w1.Write (.json obj) }
  else { c with writer := w1.WriteHeaderNow }

/-- `http.StatusForbidden`. -/
def StatusForbidden : Nat := 403

/-- `http.StatusOK`. -/
def StatusOK : Nat := 200

/-- `http.MethodOptions`. -/
def MethodOptions : String := "OPTIONS"

/-- The JSON object that `checkNickMiddleware` answers with. -/
def forbiddenBody : H :=
  [("error", "You must have a \x27user\x27 cookie to access this endpoint.")]

/-- The handler returned by `checkNickMiddleware()`; `next` stands for
`c.Next()`. -/
def checkNickMiddleware (next : Context → Option Context) (c : Context) : Option Context :=
  match c.Cookie "user" with
  | .error _ => some ((c.JSON StatusForbidden forbiddenBody).Abort)
  | .ok nick =>
    if nick = "" then some ((c.JSON StatusForbidden forbiddenBody).Abort)
    else next c

/-- The handler returned by `corsMiddleware()`; `next` stands for `c.Next()`. -/
def corsMiddleware (next : Context → Option Context) (c : Context) : Option Context :=
  let origin := c.request.header.Get "Origin"
  let c1 : Context :=
    if origin ≠ "" then
      let h := c.writer.header.Set "Access-Control-Allow-Origin" origin
      let h := h.Set "Access-Control-Allow-Credentials" "true"
      let h := h.Set "Access-Control-Allow-Methods" "GET, POST, PATCH, PUT, DELETE, OPTIONS"
      let h := h.Set "Access-Control-Allow-Headers" "Origin, Content-Type, X-Auth-Token"
      { c with writer := { c.writer with header := h } }
    else c
  if c1.request.method = MethodOptions then some (c1.AbortWithStatus StatusOK)
  else next c1

/-- What the chat handler (package `router`, built by `NewChatHandler`) does to
the response for each of its methods; its code is outside this file, so it is
a parameter. -/
structure ChatHandler where
  serve : ChatMethod → Request → ResponseWriter → ResponseWriter

/-- Invoke one handler function.  `Logger` and `Recovery` of gin wrap
`c.Next()`; a chat handler method is the last of its chain and acts on the
response. -/
def call (ch : ChatHandler) :
    HandlerFunc → (Context → Option Context) → Context → Option Context
  | .logger, next, c => next c
  | .recovery, next, c => next c
  | .cors, next, c => corsMiddleware next c
  | .checkNick, next, c => checkNickMiddleware next c
  | .chat m, _, c => some { c with writer := ch.serve m c.request c.writer }

/-- The loop of `Context.Next`: while `index < len(handlers)`, invoke
`handlers[index]` and increment `index`.  A handler that calls `c.Next()`
re-enters the loop after incrementing `index`.  The result is `none` when the
fuel runs out. -/
def runLoop (ch : ChatHandler) : Nat → Context → Option Context
  | 0, _ => none
  | fuel + 1, c =>
    if c.index < c.handlers.length then
      match c.handlers.get? c.index.toNat with
      | none => none
      | some f =>
        match call ch f (fun c1 => runLoop ch fuel { c1 with index := c1.index + 1 })
            { c with ran := c.ran ++ [f] } with
        | none => none
        | some c2 => runLoop ch fuel { c2 with index := c2.index + 1 }
    else some c

/-- `Context.Next`. -/
def Context.Next (ch : ChatHandler) (fuel : Nat) (c : Context) : Option Context :=
  runLoop ch fuel { c with index := c.index + 1 }

/-! ## Router groups and the routing table -/

/-- Split a path at every slash. -/
def splitSlash : List Char → List (List Char)
  | [] => [[]]
  | c :: cs =>
    match splitSlash cs with
    | [] => [[c]]
    | seg :: rest => if c = '/' then [] :: seg :: rest else (c :: seg) :: rest

/-- The element-wise pass of `path.Clean`: `acc` is the stack of kept
elements, innermost first. -/
def cleanSegs (rooted : Bool) : List (List Char) → List (List Char) → List (List Char)
  | [], acc => acc.reverse
  | seg :: rest, acc =>
    if seg = [] ∨ seg = ['.'] then cleanSegs rooted rest acc
    else if seg = ['.', '.'] then
      match acc with
      | [] => if rooted then cleanSegs rooted rest [] else cleanSegs rooted rest [seg]
      | top :: below =>
        if top = ['.', '.'] then cleanSegs rooted rest (seg :: acc)
        else cleanSegs rooted rest below
    else cleanSegs rooted rest (seg :: acc)

/-- `path.Clean`. -/
def pathClean (p : String) : String :=
  if p = "" then "."
  else
    let rooted := p.data.head? = some '/'
    let segs := cleanSegs rooted (splitSlash p.data) []
    let body := String.mk (List.intercalate ['/'] segs)
    if rooted then "/" ++ body
    else if body = "" then "." else body

/-- `path.Join` of two elements: empty elements are ignored, the rest is
joined by a slash and cleaned. -/
def pathJoin (a b : String) : String :=
  if a = "" ∧ b = "" then ""
  else if a = "" then pathClean b
  else if b = "" then pathClean a
  else pathClean (a ++ "/" ++ b)

/-- `lastChar` of gin. -/
def lastChar (s : String) : Option Char := s.data.getLast?

/-- `joinPaths` of gin. -/
def joinPaths (absolutePath relativePath : String) : String :=
  if relativePath = "" then absolutePath
  else
    let finalPath := pathJoin absolutePath relativePath
    if lastChar relativePath = some '/' ∧ lastChar finalPath ≠ some '/' then finalPath ++ "/"
    else finalPath

/-- A router group: the middleware collected so far and the base path. -/
structure RouterGroup where
  Handlers : List HandlerFunc := []
  basePath : String := "/"
  deriving DecidableEq, Repr

/-- One registered route with its full handler chain. -/
structure RouteInfo where
  method : String
  path : String
  handlers : List HandlerFunc
  deriving DecidableEq, Repr

/-- The gin engine: its root group, the registered routes, and the chain that
answers requests no route matches. -/
structure Engine where
  group : RouterGroup := {}
  trees : List RouteInfo := []
  allNoRoute : List HandlerFunc := []
  RedirectTrailingSlash : Bool := true
  deriving DecidableEq, Repr

/-- `RouterGroup.combineHandlers`. -/
def RouterGroup.combineHandlers (g : RouterGroup) (handlers : List HandlerFunc) :
    List HandlerFunc :=
  g.Handlers ++ handlers

/-- `RouterGroup.calculateAbsolutePath`. -/
def RouterGroup.calculateAbsolutePath (g : RouterGroup) (relativePath : String) : String :=
  joinPaths g.basePath relativePath

/-- `RouterGroup.Use` on a group other than the engine itself. -/
def RouterGroup.Use (g : RouterGroup) (middleware : List HandlerFunc) : RouterGroup :=
  { g with Handlers := g.Handlers ++ middleware }

/-- `RouterGroup.Group`: the new group copies the handlers collected so far. -/
def RouterGroup.Group (g : RouterGroup) (relativePath : String) : RouterGroup :=
  { Handlers := g.combineHandlers [], basePath := g.calculateAbsolutePath relativePath }

/-- `Engine.Use`: extend the root group and rebuild the no-route chain. -/
def Engine.Use (e : Engine) (middleware : List HandlerFunc) : Engine :=
  let g := e.group.Use middleware
  { e with group := g, allNoRoute := g.combineHandlers [] }

/-- `gin.New`. -/
def New : Engine := {}

/-- `gin.Default`: a new engine with the Logger and Recovery middleware. -/
def Default : Engine := New.Use [.logger, .recovery]

/-- `Engine.addRoute`: `none` stands for the panic on a path that does not
begin with a slash, an empty method, an empty chain, a chain of `abortIndex`
handlers or more, or a route registered twice. -/
def Engine.addRoute (e : Engine) (method path : String) (handlers : List HandlerFunc) :
    Option Engine :=
  if path.data.head? ≠ some '/' ∨ method = "" ∨ handlers = [] then none
  else if abortIndex ≤ handlers.length then none
  else if e.trees.any (fun r => r.method = method ∧ r.path = path) then none
  else some { e with trees := e.trees ++ [⟨method, path, handlers⟩] }

/-- `RouterGroup.handle`, the body of `GET`, `POST` and `DELETE`. -/
def RouterGroup.handle (g : RouterGroup) (e : Engine) (method relativePath : String)
    (handlers : List HandlerFunc) : Option Engine :=
  e.addRoute method (g.calculateAbsolutePath relativePath) (g.combineHandlers handlers)

/-- Lines 30 and 31 of `main.go`: `gin.Default()` and `router.Use(corsMiddleware())`. -/
def newRouter : Engine :=
  let router := Default
  router.Use [.cors]

/-- Lines 35 to 46 of `main.go`: the auth view on the engine itself, the group
`authorized` with `checkNickMiddleware`, and below it the group `/api`. -/
def registerRoutes (router : Engine) : Option Engine := do
  let router ← router.group.handle router "GET" "/" [.chat .GetAuthView]
  let authorized := router.group.Group "/"
  let authorized := authorized.Use [.checkNick]
  let router ← authorized.handle router "GET" "/room" [.chat .GetRoomView]
  let router ← authorized.handle router "GET" "/rooms-list" [.chat .GetRoomsListView]
  let internalApi := authorized.Group "/api"
  let router ← internalApi.handle router "GET" "/rooms-last-message" [.chat .GetRoomsLastMessage]
  let router ← internalApi.handle router "GET" "/messages" [.chat .GetMessagesFile]
  let router ← internalApi.handle router "POST" "/send-message" [.chat .SendMessage]
  let router ← internalApi.handle router "DELETE" "/clear" [.chat .ClearStdin]
  pure router

/-- The router as `main` builds it. -/
def mainRouter : Option Engine := registerRoutes newRouter

/-! ## Request dispatch -/

/-- The route registered for exactly this method and path, if any. -/
def Engine.lookup (e : Engine) (method path : String) : Option RouteInfo :=
  e.trees.find? (fun r => r.method = method ∧ r.path = path)

/-- The path with its trailing slash removed, or added when there is none. -/
def toggleTrailingSlash (p : String) : String :=
  if lastChar p = some '/' then String.mk p.data.dropLast else p ++ "/"

/-- `redirectTrailingSlash` of gin (without a forwarded prefix): answer with a
redirect to the toggled path; no handler is invoked. -/
def redirectTrailingSlash (c : Context) : Context :=
  let code : Nat := if c.request.method = "GET" then 301 else 307
  let w : ResponseWriter :=
    { c.writer with header := c.writer.header.Set "Location" (toggleTrailingSlash c.request.path) }
  { c with writer := (w.WriteHeader code).WriteHeaderNow }

/-- `serveError` of gin: preset the status, run the chain, and write the
default message when the chain left the response untouched. -/
def serveError (ch : ChatHandler) (fuel : Nat) (c : Context) (code : Nat)
    (defaultMessage : String) : Option Context :=
  match Context.Next ch fuel { c with writer := { c.writer with status := code } } with
  | none => none
  | some c1 =>
    if c1.writer.written then some c1
    else if c1.writer.status = code then
      let w : ResponseWriter :=
        { c1.writer with header := c1.writer.header.Set "Content-Type" "text/plain" }
      some { c1 with writer := w.Write (.text defaultMessage) }
    else some { c1 with writer := c1.writer.WriteHeaderNow }

/-- `Engine.handleHTTPRequest`: a request that matches a route runs that
route's chain from index `-1`; a request whose path differs from a route of the
same method only by the trailing slash is redirected; every other request runs
the no-route chain with status 404 preset. -/
def handleHTTPRequest (ch : ChatHandler) (e : Engine) (fuel : Nat) (r : Request) :
    Option Context :=
  let c : Context := { request := r }
  match e.lookup r.method r.path with
  | some route => Context.Next ch fuel { c with handlers := route.handlers }
  | none =>
    if e.trees.any (fun t => t.method = r.method) ∧ r.method ≠ "CONNECT" ∧ r.path ≠ "/"
        ∧ (e.lookup r.method (toggleTrailingSlash r.path)).isSome ∧ e.RedirectTrailingSlash then
      some (redirectTrailingSlash c)
    else serveError ch fuel { c with handlers := e.allNoRoute } 404 "404 page not found"

/-- The routes that serve chat operations. -/
def chatRoutes : List (String × String × ChatMethod) :=
  [("GET", "/room", .GetRoomView),
   ("GET", "/rooms-list", .GetRoomsListView),
   ("GET", "/api/rooms-last-message", .GetRoomsLastMessage),
   ("GET", "/api/messages", .GetMessagesFile),
   ("POST", "/api/send-message", .SendMessage),
   ("DELETE", "/api/clear", .ClearStdin)]

/-- A request carries no identity: `Cookie("user")` fails or yields the empty
string. -/
def noIdentity (r : Request) : Prop :=
  (∃ err, r.Cookie "user" = .error err) ∨ r.Cookie "user" = .ok ""

/-- The context `c` with the four CORS headers of `corsMiddleware` set on the
response (used to state what the middleware continues with). -/
def withCorsHeader (c : Context) : Context :=
  let h := c.writer.header.Set "Access-Control-Allow-Origin" (c.request.header.Get "Origin")
  let h := h.Set "Access-Control-Allow-Credentials" "true"
  let h := h.Set "Access-Control-Allow-Methods" "GET, POST, PATCH, PUT, DELETE, OPTIONS"
  let h := h.Set "Access-Control-Allow-Headers" "Origin, Content-Type, X-Auth-Token"
  { c with writer := { c.writer with header := h } }


/-- The context `corsMiddleware` continues with: `c` itself when the request
names no origin, `c` with the four CORS headers otherwise. -/
def corsContext (c : Context) : Context :=
  if c.request.header.Get "Origin" ≠ "" then withCorsHeader c else c

/-- What the handler loop does to a context when a handler returns: `index++`. -/
def bump (c : Context) : Context :=
  { c with index := c.index + 1 }

/-- The context a handler is invoked on, with the invocation recorded. -/
def enter (c : Context) (f : HandlerFunc) : Context :=
  { c with ran := c.ran ++ [f] }

/-! ## Sample requests -/

/-- A browser request for the room view that names an origin and carries the
cookie of user `bob`. -/
def sampleRoomRequest : Request :=
  { method := "GET", path := "/room",
    header := ⟨[("Origin", ["https://chat.example"])]⟩,
    cookies := [("user", "bob")] }

/-- A request to post a message that carries no cookie at all. -/
def sampleAnonymousSend : Request :=
  { method := "POST", path := "/api/send-message" }

/-- A preflight request for the send route, without cookie and without origin. -/
def samplePreflight : Request :=
  { method := "OPTIONS", path := "/api/send-message" }

/-- A chat handler whose methods leave the response as it is. -/
def idleChatHandler : ChatHandler := ⟨fun _ _ w => w⟩

/-! ## Channels -/

/-- Modelled from the spec: `models.Messages` (package `pkg/models`, whose
declaration is outside this file), the queue element: a message for a room,
with its sender and body. -/
structure Messages where
  room : String
  sender : String
  body : String
  deriving DecidableEq, Repr

/-- A buffered Go channel: capacity, buffered elements in send order, and
whether it has been closed. -/
structure Chan (α : Type) where
  cap : Nat
  buf : List α := []
  closed : Bool := false
  deriving DecidableEq, Repr

/-- `make(chan T, cap)`. -/
def makeChan (α : Type) (cap : Nat) : Chan α :=
  { cap := cap }

/-- What a send on a channel does when no receiver is waiting. -/
inductive SendResult (α : Type)
  | sent (c : Chan α)
  | blocks
  | panics
  deriving DecidableEq, Repr

/-- `ch <- x` with no receiver waiting: a panic on a closed channel, buffered
while there is room, blocked otherwise. -/
def Chan.send {α : Type} (c : Chan α) (x : α) : SendResult α :=
  if c.closed then .panics
  else if c.buf.length < c.cap then .sent { c with buf := c.buf ++ [x] }
  else .blocks

/-- Send the elements of a list one after the other, with no receive in
between; `none` when one of the sends blocks or panics. -/
def Chan.sendAll {α : Type} (c : Chan α) : List α → Option (Chan α)
  | [] => some c
  | x :: xs =>
    match c.send x with
    | .sent c1 => c1.sendAll xs
    | _ => none

/-- `<-ch` on a non-empty buffer: the oldest element and the rest. -/
def Chan.recv {α : Type} (c : Chan α) : Option (α × Chan α) :=
  match c.buf with
  | [] => none
  | x :: rest => some (x, { c with buf := rest })

/-- `close(ch)`; `none` stands for the panic on a channel closed before. -/
def Chan.close {α : Type} (c : Chan α) : Option (Chan α) :=
  if c.closed then none else some { c with closed := true }

/-! ## The process state of `main` -/

/-- The statements of `main`, in program order; each constructor names the
statement that the main goroutine executes next.  The three `defer`red calls
run after `wg.Wait()` in reverse order of registration. -/
inductive MainPc
  | parseConfig
  | setupLogger
  | makeQueue
  | newRouter
  | newChatHandler
  | registerRoutes
  | notifyStop
  | newServer
  | goServe
  | mkdir
  | awaitStop
  | logShutdown
  | withTimeout
  | wgAdd
  | goShutdown
  | wgWait
  | deferCancel
  | deferCloseQueue
  | deferCloseLog
  | exited
  deriving DecidableEq, Repr

/-- The goroutine of lines 55 to 60: log, then `srv.ListenAndServe()`. -/
inductive ServePc
  | idle
  | logStarted
  | listen
  | serving
  | done
  deriving DecidableEq, Repr

/-- The goroutine of lines 75 to 81: `srv.Shutdown(ctx)`, the error log, the
exit log, and the deferred `wg.Done()`. -/
inductive ShutdownPc
  | idle
  | callShutdown
  | waiting
  | logError (err : HttpError)
  | logExit
  | wgDone
  | done
  deriving DecidableEq, Repr

/-- How the process stands. -/
inductive ProcStatus
  | running
  | returned
  | panicked
  | killed
  deriving DecidableEq, Repr

/-- The storage location as the process finds it: whether `./messages`
exists, and whether the working directory allows creating it. -/
structure FileSystem where
  rootExists : Bool
  canCreate : Bool
  deriving DecidableEq, Repr

/-- `os.Mkdir("./messages", os.ModePerm)`: fails when the directory exists
already or may not be created. -/
def FileSystem.Mkdir (fs : FileSystem) : Except String FileSystem :=
  if fs.rootExists then .error "mkdir ./messages: file exists"
  else if fs.canCreate then .ok { fs with rootExists := true }
  else .error "mkdir ./messages: permission denied"

/-- Log levels used by `main`. -/
inductive Level
  | info
  | error
  deriving DecidableEq, Repr

/-- One entry written through the zap logger: level, message, and the error
field when there is one. -/
structure LogEntry where
  level : Level
  msg : String
  err : Option String := none
  deriving DecidableEq, Repr

/-- The context of line 69: its timeout in seconds, the time (in seconds on
the process clock) at which it was made, and whether `cancel` has been
called. -/
structure Ctx where
  timeoutSeconds : Nat
  createdAt : Nat
  cancelled : Bool := false
  deriving DecidableEq, Repr

/-- The deadline of a context has passed: `timeoutSeconds` seconds or more
have gone by since it was made. -/
def Ctx.expired (c : Ctx) (now : Nat) : Bool :=
  decide (c.createdAt + c.timeoutSeconds ≤ now)

/-- The `http.Server` of line 51. -/
structure Server where
  listening : Bool := false
  inShutdown : Bool := false
  deriving DecidableEq, Repr

/-- Ghost trace: what has happened in the process so far, oldest first. -/
inductive Event
  | queueMade (cap : Nat)
  | handlerBuilt
  | serverSpawned
  | listening
  | mkdirDone (ok : Bool)
  | requestAccepted (m : Messages)
  | sendAccepted (m : Messages)
  | sendRefused (m : Messages)
  | writeDone (m : Messages) (ok : Bool)
  | stopReceived
  | shutdownCalled (timeoutSeconds : Nat)
  | shutdownReturned (err : Option HttpError)
  | queueClosed
  | logFileClosed
  | panicked
  deriving DecidableEq, Repr

/-- The state of the running process. -/
structure State where
  fs : FileSystem
  port : String
  status : ProcStatus := .running
  mainPc : MainPc := .parseConfig
  servePc : ServePc := .idle
  shutdownPc : ShutdownPc := .idle
  logFileOpen : Bool := false
  queues : List (Chan Messages) := []
  msgCh : Option Nat := none
  handlerQueue : Option Nat := none
  router : Option Engine := none
  stop : Option (Chan Unit) := none
  srv : Option Server := none
  ctx : Option Ctx := none
  wg : Nat := 0
  now : Nat := 0
  inflight : List Messages := []
  logs : List LogEntry := []
  written : List Messages := []
  events : List Event := []
  deriving DecidableEq, Repr

/-- `logger.Info`. -/
def State.Info (s : State) (msg : String) (err : Option String) : State :=
  { s with logs := s.logs ++ [⟨.info, msg, err⟩] }

/-- `logger.Error`. -/
def State.Error (s : State) (msg : String) (err : Option String) : State :=
  { s with logs := s.logs ++ [⟨.error, msg, err⟩] }

/-- Record an event in the ghost trace. -/
def State.emit (s : State) (e : Event) : State :=
  { s with events := s.events ++ [e] }

/-- The channel a reference points to. -/
def State.chan (s : State) (ref : Option Nat) : Option (Chan Messages) :=
  match ref with
  | none => none
  | some i => s.queues.get? i

/-- The text of an error as the logger prints it. -/
def HttpError.text : HttpError → String
  | .ErrNoCookie => "http: named cookie not present"
  | .ErrServerClosed => "http: Server closed"
  | .DeadlineExceeded => "context deadline exceeded"
  | .other msg => msg

/-! ## The steps of the process -/

/-- One scheduling choice: which goroutine moves, or which outside event
happens.  `serve` carries what the listener reports (an error text when it
fails), `shutdown` whether the connections that serve no send request are
idle when `Shutdown` polls; `tick` is one second going by; `accept` is a send
request reaching the server, `enqueue` the handler of an accepted request
getting to its send on the queue. -/
inductive Act
  | main
  | serve (fail : Option String)
  | shutdown (idle : Bool)
  | signal
  | tick
  | accept (m : Messages)
  | enqueue (m : Messages)
  | worker
  deriving DecidableEq, Repr

/-- The panic of a goroutine: the process dies with the deferred calls of
`main` not run. -/
def State.panic (s : State) : State :=
  { s with status := .panicked }.emit .panicked

/-- The next statement of the main goroutine; `none` while it is blocked (on
`<-stop` with no signal buffered, on `wg.Wait()` with the counter above zero)
or has returned. -/
def stepMain (s : State) : Option State :=
  match s.mainPc with
  | .parseConfig => some { s with mainPc := .setupLogger }
  | .setupLogger => some { s with mainPc := .makeQueue, logFileOpen := true }
  | .makeQueue =>
    some ({ s with mainPc := .newRouter, queues := s.queues ++ [makeChan Messages 10],
                   msgCh := some s.queues.length }.emit (.queueMade 10))
  | .newRouter => some { s with mainPc := .newChatHandler, router := some newRouter }
  | .newChatHandler =>
    some ({ s with mainPc := .registerRoutes, handlerQueue := s.msgCh }.emit .handlerBuilt)
  | .registerRoutes =>
    match s.router.bind registerRoutes with
    | some e => some { s with mainPc := .notifyStop, router := some e }
    | none => some s.panic
  | .notifyStop => some { s with mainPc := .newServer, stop := some (makeChan Unit 1) }
  | .newServer => some { s with mainPc := .goServe, srv := some {} }
  | .goServe => some ({ s with mainPc := .mkdir, servePc := .logStarted }.emit .serverSpawned)
  | .mkdir =>
    match s.fs.Mkdir with
    | .error err =>
      some (({ s with mainPc := .awaitStop }.Info "can not create messages dis" (some err)).emit
        (.mkdirDone false))
    | .ok fs => some ({ s with mainPc := .awaitStop, fs := fs }.emit (.mkdirDone true))
  | .awaitStop =>
    match s.stop.bind Chan.recv with
    | some (_, st) => some ({ s with mainPc := .logShutdown, stop := some st }.emit .stopReceived)
    | none => none
  | .logShutdown => some ({ s with mainPc := .withTimeout }.Info "Shutting down server..." none)
  | .withTimeout =>
    some { s with mainPc := .wgAdd, ctx := some { timeoutSeconds := 5, createdAt := s.now } }
  | .wgAdd => some { s with mainPc := .goShutdown, wg := s.wg + 1 }
  | .goShutdown => some { s with mainPc := .wgWait, shutdownPc := .callShutdown }
  | .wgWait => if s.wg = 0 then some { s with mainPc := .deferCancel } else none
  | .deferCancel =>
    some { s with mainPc := .deferCloseQueue,
                  ctx := s.ctx.map (fun c => { c with cancelled := true }) }
  | .deferCloseQueue =>
    match s.msgCh, (s.chan s.msgCh).bind Chan.close with
    | some i, some q =>
      some ({ s with mainPc := .deferCloseLog, queues := s.queues.set i q }.emit .queueClosed)
    | _, _ => some s.panic
  | .deferCloseLog =>
    some ({ s with mainPc := .exited, logFileOpen := false, status := .returned }.emit
      .logFileClosed)
  | .exited => none

/-- The next step of the server goroutine.  `ListenAndServe` returns
`ErrServerClosed` once the server is shut down, which ends the goroutine; any
other error makes the goroutine panic; otherwise it serves and does not
return. -/
def stepServe (s : State) (fail : Option String) : Option State :=
  match s.servePc with
  | .idle => none
  | .logStarted =>
    some ({ s with servePc := .listen }.Info ("Server started at http://localhost:" ++ s.port) none)
  | .listen =>
    match s.srv with
    | none => none
    | some srv =>
      if srv.inShutdown then some { s with servePc := .done }
      else match fail with
        | some _ => some s.panic
        | none =>
          some ({ s with servePc := .serving, srv := some { srv with listening := true } }.emit
            .listening)
  | .serving =>
    match s.srv with
    | none => none
    | some srv =>
      if srv.inShutdown then some { s with servePc := .done }
      else match fail with
        | some _ => some s.panic
        | none => none
  | .done => none

/-- The next step of the shutdown goroutine.  `srv.Shutdown(ctx)` closes the
listener, then returns `nil` once no connection is busy any more (none that
the environment reports, and no handler of a send request still running), or
the context's error once the context is done. -/
def stepShutdown (s : State) (idle : Bool) : Option State :=
  match s.shutdownPc with
  | .idle => none
  | .callShutdown =>
    match s.ctx with
    | none => none
    | some c =>
      some ({ s with shutdownPc := .waiting,
                     srv := s.srv.map (fun _ => { listening := false, inShutdown := true }) }.emit
        (.shutdownCalled c.timeoutSeconds))
  | .waiting =>
    if idle = true ∧ s.inflight = [] then
      some ({ s with shutdownPc := .logExit }.emit (.shutdownReturned none))
    else match s.ctx with
      | none => none
      | some c =>
        if c.expired s.now then
          some ({ s with shutdownPc := .logError .DeadlineExceeded }.emit
            (.shutdownReturned (some .DeadlineExceeded)))
        else if c.cancelled then
          some ({ s with shutdownPc := .logError (.other "context canceled") }.emit
            (.shutdownReturned (some (.other "context canceled"))))
        else none
  | .logError err =>
    some ({ s with shutdownPc := .logExit }.Error "failed to shutdown server" (some err.text))
  | .logExit => some ({ s with shutdownPc := .wgDone }.Info "Server exited gracefully" none)
  | .wgDone => some { s with shutdownPc := .done, wg := s.wg - 1 }
  | .done => none

/-- A stop signal (SIGINT or SIGTERM) arrives: before `signal.Notify` it kills
the process; afterwards it is put into `stop`, or dropped when `stop` is full. -/
def stepSignal (s : State) : Option State :=
  match s.stop with
  | none => some { s with status := .killed }
  | some st =>
    match st.send () with
    | .sent st1 => some { s with stop := some st1 }
    | _ => some s

/-- One second goes by on the process clock. -/
def stepTick (s : State) : Option State :=
  some { s with now := s.now + 1 }

/-- Modelled from the spec: a send request reaches the chat handler (package
`router`, outside this file).  The server takes requests only while it is
listening; an accepted request has a handler running that has yet to put its
message into the queue. -/
def stepAccept (s : State) (m : Messages) : Option State :=
  match s.srv with
  | some srv =>
    if srv.listening then
      some ({ s with inflight := s.inflight ++ [m] }.emit (.requestAccepted m))
    else none
  | none => none

/-- Modelled from the spec: the send path of the chat handler, "HTTP handler,
then `Send`, then the MessageQueue", with the original's blocking channel send
inside the request handler.  A running handler sends its message on the queue
the handler was built with, whether or not the server still listens: the
message is buffered when there is room; the handler stays blocked while the
queue is full; when the queue has been closed the send panics, which gin's
Recovery catches, and the message is dropped. -/
def stepEnqueue (s : State) (m : Messages) : Option State :=
  if m ∈ s.inflight then
    match s.handlerQueue, s.chan s.handlerQueue with
    | some i, some q =>
      match q.send m with
      | .sent q1 =>
        some ({ s with queues := s.queues.set i q1, inflight := s.inflight.erase m }.emit
          (.sendAccepted m))
      | .blocks => none
      | .panics => some ({ s with inflight := s.inflight.erase m }.emit (.sendRefused m))
    | _, _ => none
  else none

/-- Modelled from the spec: the ingestion worker (package `router`, outside
this file), "dequeue one pair, append it via RoomLog, repeat": one turn takes
the oldest buffered message and appends it to the room file under
`./messages`, which fails when that directory does not exist. -/
def stepWorker (s : State) : Option State :=
  match s.handlerQueue, (s.chan s.handlerQueue).bind Chan.recv with
  | some i, some (m, q1) =>
    let ok := s.fs.rootExists
    some ({ s with queues := s.queues.set i q1,
                   written := if ok then s.written ++ [m] else s.written }.emit (.writeDone m ok))
  | _, _ => none

/-- One step of the process under a scheduling choice; `none` when the choice
is not possible in this state.  A process that has ended takes no step. -/
def step (s : State) (a : Act) : Option State :=
  if s.status ≠ .running then none
  else match a with
    | .main => stepMain s
    | .serve fail => stepServe s fail
    | .shutdown idle => stepShutdown s idle
    | .signal => stepSignal s
    | .tick => stepTick s
    | .accept m => stepAccept s m
    | .enqueue m => stepEnqueue s m
    | .worker => stepWorker s

/-- Run a schedule from a state. -/
def exec (s : State) : List Act → Option State
  | [] => some s
  | a :: rest =>
    match step s a with
    | some s1 => exec s1 rest
    | none => none

/-- The process at the start of `main`, in a given storage location and with
the configured frontend port. -/
def start (fs : FileSystem) (port : String) : State :=
  { fs := fs, port := port }

/-- The messages accepted into the queue and still buffered there. -/
def State.unwritten (s : State) : List Messages :=
  match s.chan s.msgCh with
  | some q => q.buf
  | none => []

/-- The position of a statement of `main` in program order. -/
def MainPc.rank : MainPc → Nat
  | .parseConfig => 0
  | .setupLogger => 1
  | .makeQueue => 2
  | .newRouter => 3
  | .newChatHandler => 4
  | .registerRoutes => 5
  | .notifyStop => 6
  | .newServer => 7
  | .goServe => 8
  | .mkdir => 9
  | .awaitStop => 10
  | .logShutdown => 11
  | .withTimeout => 12
  | .wgAdd => 13
  | .goShutdown => 14
  | .wgWait => 15
  | .deferCancel => 16
  | .deferCloseQueue => 17
  | .deferCloseLog => 18
  | .exited => 19

/-- The shutdown goroutine has got its answer from `srv.Shutdown`. -/
def ShutdownPc.returned : ShutdownPc → Bool
  | .logError _ => true
  | .logExit => true
  | .wgDone => true
  | .done => true
  | _ => false

/-- The shutdown goroutine has called `srv.Shutdown`. -/
def ShutdownPc.called : ShutdownPc → Bool
  | .idle => false
  | .callShutdown => false
  | _ => true

/-- What holds in every state of the process: how the queue, the chat handler,
the server, the wait group and the goroutines stand at each statement of
`main`. -/
structure Inv (s : State) : Prop where
  noQueue : s.mainPc.rank ≤ 2 → s.queues = [] ∧ s.msgCh = none
  oneQueue : 2 < s.mainPc.rank →
    ∃ q, s.queues = [q] ∧ s.msgCh = some 0 ∧ q.cap = 10 ∧ q.buf.length ≤ 10 ∧
      (q.closed = true ↔ 18 ≤ s.mainPc.rank)
  handler : s.handlerQueue = if 4 < s.mainPc.rank then some 0 else none
  server : s.srv.isSome = true ↔ 7 < s.mainPc.rank
  serveIdle : s.servePc = .idle ↔ s.mainPc.rank ≤ 8
  shutdownIdle : s.shutdownPc = .idle ↔ s.mainPc.rank ≤ 14
  waitGroup : s.wg = if s.mainPc.rank ≤ 13 ∨ s.shutdownPc = .done then 0 else 1
  joined : 16 ≤ s.mainPc.rank → s.shutdownPc = .done
  closedServer : s.shutdownPc.called = true → s.srv = some ⟨false, true⟩
  openServer : s.shutdownPc.called = false → ∀ v, s.srv = some v → v.inShutdown = false
  deadline : ∀ c, s.ctx = some c → c.timeoutSeconds = 5
  exitStatus : s.status = .returned ↔ s.mainPc = .exited
  context : s.ctx.isSome = true ↔ 12 < s.mainPc.rank
  notCancelled : ∀ c, s.ctx = some c → c.cancelled = true → 17 ≤ s.mainPc.rank

/-- The log entries `main` can write: the four messages of `main` and its two
goroutines, with an error field on the two that report an error. -/
def LogEntry.known (port : String) (e : LogEntry) : Prop :=
  e = ⟨.info, "Server started at http://localhost:" ++ port, none⟩ ∨
  (∃ err : String, e = ⟨.info, "can not create messages dis", some err⟩) ∨
  e = ⟨.info, "Shutting down server...", none⟩ ∨
  (∃ err : HttpError, e = ⟨.error, "failed to shutdown server", some err.text⟩) ∨
  e = ⟨.info, "Server exited gracefully", none⟩

/-- What a monitor reading the trace has seen so far: how often the storage
root creation was tried, whether the stop signal was received, whether
`Shutdown` was called and has returned, how often the queue was closed,
whether the log file was closed, and whether every event so far came in its
place (`ok`). -/
structure Seen where
  mkdirs : Nat := 0
  stop : Bool := false
  called : Bool := false
  returned : Bool := false
  closes : Nat := 0
  logClosed : Bool := false
  ok : Bool := true
  deriving DecidableEq, Repr

/-- The monitor reads one event.  An event is in its place when: the stop
signal is received after the storage root creation was tried; `Shutdown` is
called after the stop signal; it returns after it was called; the queue is
closed after all three; the log file is closed after the queue; a request is
accepted before `Shutdown` is called. -/
def Seen.add (m : Seen) : Event → Seen
  | .mkdirDone _ => { m with mkdirs := m.mkdirs + 1 }
  | .stopReceived => { m with stop := true, ok := m.ok && decide (1 ≤ m.mkdirs) }
  | .shutdownCalled _ => { m with called := true, ok := m.ok && m.stop }
  | .shutdownReturned _ => { m with returned := true, ok := m.ok && m.called }
  | .queueClosed =>
    { m with closes := m.closes + 1, ok := m.ok && m.stop && m.called && m.returned }
  | .logFileClosed => { m with logClosed := true, ok := m.ok && decide (1 ≤ m.closes) }
  | .requestAccepted _ => { m with ok := m.ok && !m.called }
  | _ => m

/-- The monitor after reading a whole trace. -/
def seen (evs : List Event) : Seen :=
  evs.foldl Seen.add {}

/-- What the monitor must have seen, judging by where the goroutines stand. -/
def expectedSeen (s : State) : Seen :=
  { mkdirs := if 10 ≤ s.mainPc.rank then 1 else 0,
    stop := decide (11 ≤ s.mainPc.rank),
    called := s.shutdownPc.called,
    returned := s.shutdownPc.returned,
    closes := if 18 ≤ s.mainPc.rank then 1 else 0,
    logClosed := decide (s.mainPc = .exited),
    ok := true }

/-- The shutdown goroutine has written its last log entry. -/
def ShutdownPc.exitLogged : ShutdownPc → Bool
  | .wgDone => true
  | .done => true
  | _ => false

/-- The entry of line 67. -/
def shuttingDownEntry : LogEntry := ⟨.info, "Shutting down server...", none⟩

/-- The entry of line 78 for an error of `Shutdown`. -/
def shutdownErrorEntry (err : HttpError) : LogEntry :=
  ⟨.error, "failed to shutdown server", some err.text⟩

/-- The entry of line 80. -/
def exitEntry : LogEntry := ⟨.info, "Server exited gracefully", none⟩

/-- What a monitor reading the log has seen so far: the entry of line 67, the
entry of line 80, and whether every entry so far came in its place (`ok`). -/
structure LogSeen where
  shut : Bool := false
  exit : Bool := false
  ok : Bool := true
  deriving DecidableEq, Repr

/-- The log monitor reads one entry.  An error entry is in its place after
the entry of line 67 and before the entry of line 80; the entry of line 80 is
in its place after the entry of line 67. -/
def LogSeen.add (m : LogSeen) (e : LogEntry) : LogSeen :=
  if e.level = .error then { m with ok := m.ok && m.shut && !m.exit }
  else if e = exitEntry then { m with exit := true, ok := m.ok && m.shut }
  else if e = shuttingDownEntry then { m with shut := true }
  else m

/-- The log monitor after reading a whole log. -/
def logSeen (logs : List LogEntry) : LogSeen :=
  logs.foldl LogSeen.add {}

/-- What the log monitor must have seen, judging by where the goroutines
stand. -/
def expectedLogSeen (s : State) : LogSeen :=
  { shut := decide (12 ≤ s.mainPc.rank), exit := s.shutdownPc.exitLogged, ok := true }

/-- What holds of the trace and the log in every state of a process started
in storage location `fs0`. -/
structure Trace (fs0 : FileSystem) (s : State) : Prop where
  monitor : seen s.events = expectedSeen s
  logMonitor : logSeen s.logs = expectedLogSeen s
  calledWith : ∀ d, .shutdownCalled d ∈ s.events → d = 5
  root : s.fs.rootExists = true ↔ (fs0.rootExists = true ∨ .mkdirDone true ∈ s.events)
  knownLogs : ∀ e ∈ s.logs, e.known s.port
  errorLogged : ∀ e ∈ s.logs, e.level = .error →
    ∃ err : HttpError, e = ⟨.error, "failed to shutdown server", some err.text⟩ ∧
      .shutdownReturned (some err) ∈ s.events
  errorPending : ∀ err, .shutdownReturned (some err) ∈ s.events →
    s.shutdownPc = .logError err ∨
      ⟨.error, "failed to shutdown server", some err.text⟩ ∈ s.logs
  exitLogged : (s.shutdownPc = .wgDone ∨ s.shutdownPc = .done) →
    ⟨.info, "Server exited gracefully", none⟩ ∈ s.logs
  errorReturned : ∀ err, s.shutdownPc = .logError err →
    .shutdownReturned (some err) ∈ s.events

/-! ## Sample schedules -/

/-- A message of user `bob` for the room `lobby`. -/
def sampleMessage : Messages := ⟨"lobby", "bob", "hi"⟩

/-- A second message for the room `lobby`. -/
def otherMessage : Messages := ⟨"lobby", "eve", "yo"⟩

/-- A storage location where `./messages` is missing and can be created. -/
def freshStorage : FileSystem := ⟨false, true⟩

/-- A storage location where `./messages` is missing and may not be created. -/
def deniedStorage : FileSystem := ⟨false, false⟩

/-- The main goroutine runs up to and including `go func() ...` of line 55
(nine statements), without the server goroutine having moved yet. -/
def untilServerSpawned : List Act :=
  List.replicate 9 Act.main

/-- The main goroutine runs through `os.Mkdir` up to `<-stop`; then the server
goroutine logs and starts serving. -/
def startupRun : List Act :=
  List.replicate 10 Act.main ++ [.serve none, .serve none]

/-- The stop signal arrives; `Shutdown` finds all connections idle and returns
`nil`; main closes the queue and the log file and returns. -/
def shutdownInTime : List Act :=
  [Act.signal] ++ List.replicate 5 Act.main ++
    [.shutdown true, .shutdown true, .shutdown true, .shutdown true] ++
    List.replicate 4 Act.main

/-- The stop signal arrives; connections stay busy for the five seconds of
the context, so `Shutdown` returns the context's error; main closes the queue
and the log file and returns. -/
def shutdownTimedOut : List Act :=
  [Act.signal] ++ List.replicate 5 Act.main ++
    [Act.shutdown false] ++ List.replicate 5 Act.tick ++
    [.shutdown false, .shutdown false, .shutdown false, .shutdown false] ++
    List.replicate 4 Act.main

/-- What the process has logged at the end of a run that began with
`startupRun` and ended with `shutdownTimedOut`. -/
def timedOutLogs : List LogEntry :=
  [⟨.info, "Server started at http://localhost:8080", none⟩,
   ⟨.info, "Shutting down server...", none⟩,
   ⟨.error, "failed to shutdown server", some "context deadline exceeded"⟩,
   ⟨.info, "Server exited gracefully", none⟩]

/-- A send request is accepted and its handler puts the message into the
queue. -/
def sendOf (m : Messages) : List Act :=
  [Act.accept m, Act.enqueue m]

/-- The server is up and ten messages are sent without the worker taking any. -/
def tenSends : List Act :=
  startupRun ++ (List.replicate 10 (sendOf sampleMessage)).join

/-- The state at the end of a schedule run from `freshStorage` with port 8080
(the start state itself if the schedule cannot be run). -/
def endOf (acts : List Act) : State :=
  (exec (start freshStorage "8080") acts).getD (start freshStorage "8080")

/-- A whole run: startup, one message accepted and never taken by the worker,
then a shutdown that `Shutdown` completes in time. -/
def gracefulRun : List Act :=
  startupRun ++ sendOf sampleMessage ++ shutdownInTime

/-- A whole run in which two messages are accepted, the worker takes neither,
and the deadline passes before `Shutdown` is done. -/
def timedOutRun : List Act :=
  startupRun ++ sendOf sampleMessage ++ sendOf otherMessage ++ shutdownTimedOut

/-- A whole run like `timedOutRun` with one message only. -/
def timedOutRunOne : List Act :=
  startupRun ++ sendOf sampleMessage ++ shutdownTimedOut

/-- Ten messages are buffered with the worker idle, and an eleventh request
is accepted. -/
def elevenRequests : List Act :=
  tenSends ++ [Act.accept otherMessage]

/-- The state in which `main` is about to run `os.Mkdir`, the server goroutine
spawned but not yet moved, in storage where `./messages` may not be created. -/
def beforeMkdirDenied : State :=
  (exec (start deniedStorage "8080") untilServerSpawned).getD (start deniedStorage "8080")
/-! ## Facts about headers and the handler loop -/

theorem Header.get_set_same (h : Header) (k v : String) : (h.Set k v).Get k = v := by
  simp [Header.Set, Header.Get, Header.Values, List.lookup]

theorem Header.values_set_of_ne (h : Header) (k k1 v : String) (hne : k1 ≠ k) :
    (h.Set k v).Values k1 = h.Values k1 := by
  obtain ⟨es⟩ := h
  have hb : (k1 == k) = false := by simpa using hne
  simp only [Header.Set, Header.Values, List.lookup, hb]
  congr 1
  induction es with
  | nil => rfl
  | cons kv rest ih =>
    obtain ⟨a, b⟩ := kv
    by_cases hak : a = k
    · subst hak
      simp [List.filter, List.lookup, hb, ih]
    · have h1 : (a != k) = true := by simpa using hak
      simp only [List.filter, h1, List.lookup]
      rw [ih]

theorem Header.get_set_of_ne (h : Header) (k k1 v : String) (hne : k1 ≠ k) :
    (h.Set k v).Get k1 = h.Get k1 := by
  simp [Header.Get, Header.values_set_of_ne h k k1 v hne]

@[simp] theorem abortWithStatus_header (c : Context) (code : Nat) :
    (c.AbortWithStatus code).writer.header = c.writer.header := by
  simp only [Context.AbortWithStatus, Context.Abort, Context.Status,
    ResponseWriter.WriteHeader, ResponseWriter.WriteHeaderNow]
  split_ifs <;> rfl

theorem abortWithStatus_status (c : Context) (hw : c.writer.written = false) :
    (c.AbortWithStatus StatusOK).writer.status = 200 := by
  simp only [Context.AbortWithStatus, Context.Abort, Context.Status,
    ResponseWriter.WriteHeader, ResponseWriter.WriteHeaderNow, StatusOK, hw]
  split_ifs <;> simp_all

@[simp] theorem abortWithStatus_written (c : Context) (code : Nat) :
    (c.AbortWithStatus code).writer.written = true := by
  simp only [Context.AbortWithStatus, Context.Abort, Context.Status,
    ResponseWriter.WriteHeader, ResponseWriter.WriteHeaderNow]
  split_ifs <;> simp_all

@[simp] theorem abortWithStatus_index (c : Context) (code : Nat) :
    (c.AbortWithStatus code).index = abortIndex := rfl

@[simp] theorem abortWithStatus_ran (c : Context) (code : Nat) :
    (c.AbortWithStatus code).ran = c.ran := rfl

@[simp] theorem abortWithStatus_handlers (c : Context) (code : Nat) :
    (c.AbortWithStatus code).handlers = c.handlers := rfl

theorem corsMiddleware_eq (next : Context → Option Context) (c : Context) :
    corsMiddleware next c =
      if c.request.method = MethodOptions then some ((corsContext c).AbortWithStatus StatusOK)
      else next (corsContext c) := by
  unfold corsMiddleware corsContext
  by_cases ho : c.request.header.Get "Origin" = ""
  · simp [ho]
  · simp [ho, withCorsHeader]

@[simp] theorem corsContext_fields (c : Context) :
    (corsContext c).request = c.request ∧ (corsContext c).handlers = c.handlers ∧
    (corsContext c).index = c.index ∧ (corsContext c).ran = c.ran ∧
    (corsContext c).writer.status = c.writer.status ∧
    (corsContext c).writer.written = c.writer.written ∧
    (corsContext c).writer.body = c.writer.body := by
  unfold corsContext
  split_ifs <;> simp [withCorsHeader]

@[simp] theorem bump_fields (c : Context) :
    (bump c).request = c.request ∧ (bump c).handlers = c.handlers ∧
    (bump c).index = c.index + 1 ∧ (bump c).ran = c.ran ∧ (bump c).writer = c.writer :=
  ⟨rfl, rfl, rfl, rfl, rfl⟩

@[simp] theorem enter_fields (c : Context) (f : HandlerFunc) :
    (enter c f).request = c.request ∧ (enter c f).handlers = c.handlers ∧
    (enter c f).index = c.index ∧ (enter c f).ran = c.ran ++ [f] ∧
    (enter c f).writer = c.writer :=
  ⟨rfl, rfl, rfl, rfl, rfl⟩

@[simp] theorem abort_fields (c : Context) :
    c.Abort.request = c.request ∧ c.Abort.handlers = c.handlers ∧
    c.Abort.index = abortIndex ∧ c.Abort.ran = c.ran ∧ c.Abort.writer = c.writer :=
  ⟨rfl, rfl, rfl, rfl, rfl⟩

/-! ## The handler loop on concrete chains -/

theorem runLoop_succ (ch : ChatHandler) (fuel : Nat) (c : Context) :
    runLoop ch (fuel + 1) c =
      if c.index < c.handlers.length then
        match c.handlers.get? c.index.toNat with
        | none => none
        | some f =>
          match call ch f (fun c1 => runLoop ch fuel { c1 with index := c1.index + 1 })
              { c with ran := c.ran ++ [f] } with
          | none => none
          | some c2 => runLoop ch fuel { c2 with index := c2.index + 1 }
      else some c := rfl

/-- Once the index has passed the end of the chain the loop is over. -/
theorem runLoop_done (ch : ChatHandler) (fuel : Nat) (c : Context)
    (h : (c.handlers.length : Int) ≤ c.index) : runLoop ch (fuel + 1) c = some c := by
  rw [runLoop_succ, if_neg (by omega)]

/-- Running the loop at position `i` of the chain invokes `handlers[i]` and
then goes on from the context that handler leaves behind. -/
theorem runLoop_at (ch : ChatHandler) (fuel : Nat) (c : Context) (i : Nat) (f : HandlerFunc)
    (hi : c.index = i) (hf : c.handlers.get? i = some f) :
    runLoop ch (fuel + 1) c =
      match call ch f (fun c1 => runLoop ch fuel (bump c1)) (enter c f) with
      | none => none
      | some c2 => runLoop ch fuel (bump c2) := by
  have hlt : i < c.handlers.length := by
    rcases Nat.lt_or_ge i c.handlers.length with h | h
    · exact h
    · rw [List.get?_eq_none.mpr h] at hf; cases hf
  have ht : c.index.toNat = i := by omega
  rw [runLoop_succ, if_pos (by omega), ht, hf]
  rfl

/-- The loop only ever returns with the index past the end of the chain. -/
theorem runLoop_index (ch : ChatHandler) :
    ∀ (fuel : Nat) (c c1 : Context), runLoop ch fuel c = some c1 →
      (c1.handlers.length : Int) ≤ c1.index := by
  intro fuel
  induction fuel with
  | zero => intro c c1 h; simp [runLoop] at h
  | succ n ih =>
    intro c c1 h
    rw [runLoop_succ] at h
    split_ifs at h with hlt
    · split at h
      · cases h
      · split at h
        · cases h
        · exact ih _ _ h
    · cases h
      omega

/-- A handler that hands a context `c1` to `c.Next()` and then returns
(Logger, Recovery, a middleware that lets the request pass): the rest of the
chain runs inside it, and the loop ends when it returns. -/
theorem runLoop_wrap (ch : ChatHandler) (fuel : Nat) (c : Context) (i : Nat) (f : HandlerFunc)
    (c1 : Context) (hi : c.index = i) (hf : c.handlers.get? i = some f)
    (hcall : ∀ next, call ch f next (enter c f) = next c1) :
    runLoop ch (fuel + 2) c = (runLoop ch (fuel + 1) (bump c1)).map bump := by
  rw [runLoop_at ch _ c i f hi hf, hcall]
  cases hr : runLoop ch (fuel + 1) (bump c1) with
  | none => rfl
  | some c2 =>
    have := runLoop_index ch _ _ _ hr
    simp only [Option.map]
    exact runLoop_done ch fuel (bump c2) (by simp only [bump]; omega)

/-- A handler that answers and aborts: nothing after it in the chain runs. -/
theorem runLoop_abort (ch : ChatHandler) (fuel : Nat) (c : Context) (i : Nat) (f : HandlerFunc)
    (a : Context) (hi : c.index = i) (hf : c.handlers.get? i = some f)
    (hcall : ∀ next, call ch f next (enter c f) = some a)
    (ha : a.index = abortIndex) (hlen : (a.handlers.length : Int) ≤ abortIndex + 1) :
    runLoop ch (fuel + 2) c = some (bump a) := by
  rw [runLoop_at ch _ c i f hi hf, hcall]
  exact runLoop_done ch fuel (bump a) (by simp only [bump, ha]; omega)

/-! ## Facts about `Context.JSON` -/

@[simp] theorem json_fields (c : Context) (code : Nat) (obj : H) :
    (c.JSON code obj).request = c.request ∧ (c.JSON code obj).handlers = c.handlers ∧
    (c.JSON code obj).index = c.index ∧ (c.JSON code obj).ran = c.ran := by
  unfold Context.JSON
  split_ifs <;> simp

theorem json_forbidden (c : Context) (hw : c.writer.written = false) :
    (c.JSON StatusForbidden forbiddenBody).writer.status = 403 ∧
    (c.JSON StatusForbidden forbiddenBody).writer.written = true ∧
    (c.JSON StatusForbidden forbiddenBody).writer.body = c.writer.body ++ [.json forbiddenBody] := by
  simp only [Context.JSON, StatusForbidden, bodyAllowedForStatus, ResponseWriter.Write,
    ResponseWriter.WriteHeaderNow, ResponseWriter.WriteHeader, hw]
  split_ifs <;> simp_all

theorem checkNick_reject (next : Context → Option Context) (c : Context)
    (h : noIdentity c.request) :
    checkNickMiddleware next c = some ((c.JSON StatusForbidden forbiddenBody).Abort) := by
  unfold checkNickMiddleware Context.Cookie
  rcases h with ⟨err, he⟩ | he
  · rw [he]
  · rw [he]; simp

theorem checkNick_pass (next : Context → Option Context) (c : Context) (nick : String)
    (h : c.request.Cookie "user" = .ok nick) (hne : nick ≠ "") :
    checkNickMiddleware next c = next c := by
  unfold checkNickMiddleware Context.Cookie
  rw [h]; simp [hne]

/-- The loop at the identity check, for a request without identity: the check
answers, and the loop ends without invoking anything after it. -/
theorem runLoop_checkNick_reject (ch : ChatHandler) (fuel : Nat) (c : Context) (i : Nat)
    (hi : c.index = i) (hf : c.handlers.get? i = some .checkNick)
    (hlen : c.handlers.length ≤ 64) (h : noIdentity c.request) :
    runLoop ch (fuel + 2) c =
      some (bump (((enter c .checkNick).JSON StatusForbidden forbiddenBody).Abort)) := by
  apply runLoop_abort ch fuel c i .checkNick _ hi hf
  · intro next
    exact checkNick_reject _ _ h
  · rfl
  · have := (json_fields (enter c .checkNick) StatusForbidden forbiddenBody).2.1
    have h2 : (enter c .checkNick).handlers = c.handlers := rfl
    simp only [Context.Abort, this, h2, abortIndex]
    omega

/-- The loop at the CORS middleware, for a preflight request. -/
theorem runLoop_cors_preflight (ch : ChatHandler) (fuel : Nat) (c : Context) (i : Nat)
    (hi : c.index = i) (hf : c.handlers.get? i = some .cors)
    (hlen : c.handlers.length ≤ 64) (h : c.request.method = MethodOptions) :
    runLoop ch (fuel + 2) c =
      some (bump ((corsContext (enter c .cors)).AbortWithStatus StatusOK)) := by
  apply runLoop_abort ch fuel c i .cors _ hi hf
  · intro next
    simp only [call]
    rw [corsMiddleware_eq, if_pos (by simpa [enter] using h)]
  · rfl
  · have := (corsContext_fields (enter c .cors)).2.1
    have h2 : (enter c .cors).handlers = c.handlers := rfl
    simp only [abortWithStatus_handlers, this, h2, abortIndex]
    omega

/-- The loop at the CORS middleware, for any other request. -/
theorem runLoop_cors_pass (ch : ChatHandler) (fuel : Nat) (c : Context) (i : Nat)
    (hi : c.index = i) (hf : c.handlers.get? i = some .cors)
    (h : c.request.method ≠ MethodOptions) :
    runLoop ch (fuel + 2) c =
      (runLoop ch (fuel + 1) (bump (corsContext (enter c .cors)))).map bump := by
  apply runLoop_wrap ch fuel c i .cors _ hi hf
  intro next
  simp only [call]
  rw [corsMiddleware_eq, if_neg (by simpa [enter] using h)]

/-- The loop at gin's Logger, which wraps `c.Next()`. -/
theorem runLoop_logger (ch : ChatHandler) (fuel : Nat) (c : Context) (i : Nat)
    (hi : c.index = i) (hf : c.handlers.get? i = some .logger) :
    runLoop ch (fuel + 2) c = (runLoop ch (fuel + 1) (bump (enter c .logger))).map bump :=
  runLoop_wrap ch fuel c i .logger _ hi hf (fun _ => rfl)

/-- The loop at gin's Recovery, which wraps `c.Next()`. -/
theorem runLoop_recovery (ch : ChatHandler) (fuel : Nat) (c : Context) (i : Nat)
    (hi : c.index = i) (hf : c.handlers.get? i = some .recovery) :
    runLoop ch (fuel + 2) c = (runLoop ch (fuel + 1) (bump (enter c .recovery))).map bump :=
  runLoop_wrap ch fuel c i .recovery _ hi hf (fun _ => rfl)

/-! ## The routing table of `main` -/

/-- The chain of every chat route: Logger, Recovery, CORS, the identity check,
then the chat handler method. -/
theorem mainRouter_eq :
    mainRouter = some
      { group := { Handlers := [.logger, .recovery, .cors], basePath := "/" },
        trees :=
          [⟨"GET", "/", [.logger, .recovery, .cors, .chat .GetAuthView]⟩,
           ⟨"GET", "/room", [.logger, .recovery, .cors, .checkNick, .chat .GetRoomView]⟩,
           ⟨"GET", "/rooms-list", [.logger, .recovery, .cors, .checkNick, .chat .GetRoomsListView]⟩,
           ⟨"GET", "/api/rooms-last-message",
              [.logger, .recovery, .cors, .checkNick, .chat .GetRoomsLastMessage]⟩,
           ⟨"GET", "/api/messages", [.logger, .recovery, .cors, .checkNick, .chat .GetMessagesFile]⟩,
           ⟨"POST", "/api/send-message", [.logger, .recovery, .cors, .checkNick, .chat .SendMessage]⟩,
           ⟨"DELETE", "/api/clear", [.logger, .recovery, .cors, .checkNick, .chat .ClearStdin]⟩],
        allNoRoute := [.logger, .recovery, .cors],
        RedirectTrailingSlash := true } := by
  decide

/-- A request without identity on a chat chain, any method but OPTIONS: the
identity check answers 403 and the chat handler method is not invoked. -/
theorem next_gated_chain (ch : ChatHandler) (fuel : Nat) (r : Request) (m : ChatMethod)
    (hm : r.method ≠ MethodOptions) (hn : noIdentity r) :
    ∃ c1, Context.Next ch (fuel + 5)
        { request := r, handlers := [.logger, .recovery, .cors, .checkNick, .chat m] } = some c1 ∧
      c1.writer.status = 403 ∧ c1.writer.body = [.json forbiddenBody] ∧
      c1.ran = [.logger, .recovery, .cors, .checkNick] := by
  unfold Context.Next
  rw [runLoop_logger ch (fuel + 3) _ 0, runLoop_recovery ch (fuel + 2) _ 1,
    runLoop_cors_pass ch (fuel + 1) _ 2, runLoop_checkNick_reject ch fuel _ 3]
  · refine ⟨_, rfl, ?_, ?_, ?_⟩
    · simp only [bump_fields, abort_fields]
      exact (json_forbidden _ (by simp)).1
    · simp only [bump_fields, abort_fields]
      rw [(json_forbidden _ (by simp)).2.2]
      simp
    · simp
  all_goals first
    | (simp; done)
    | (simp only [bump_fields, enter_fields, corsContext_fields]; first | exact hn | exact hm)

/-- A preflight request on any chain that starts with Logger, Recovery and the
CORS middleware: the CORS middleware answers 200 and nothing after it runs. -/
theorem next_preflight_chain (ch : ChatHandler) (fuel : Nat) (r : Request)
    (w : ResponseWriter) (rest : List HandlerFunc)
    (hm : r.method = MethodOptions) (hw : w.written = false) (hlen : rest.length ≤ 61) :
    ∃ c1, Context.Next ch (fuel + 4)
        { request := r, writer := w, handlers := .logger :: .recovery :: .cors :: rest } = some c1 ∧
      c1.writer.status = 200 ∧ c1.writer.written = true ∧ c1.writer.body = w.body ∧
      c1.ran = [.logger, .recovery, .cors] ∧ c1.IsAborted = true := by
  unfold Context.Next
  rw [runLoop_logger ch (fuel + 2) _ 0, runLoop_recovery ch (fuel + 1) _ 1,
    runLoop_cors_preflight ch fuel _ 2]
  · refine ⟨_, rfl, ?_, ?_, ?_, ?_, ?_⟩
    · simp only [bump_fields]
      exact abortWithStatus_status _ (by simp [hw])
    · simp
    · simp [Context.AbortWithStatus, Context.Status, ResponseWriter.WriteHeader,
        ResponseWriter.WriteHeaderNow]
      split_ifs <;> simp
    · simp
    · simp [Context.IsAborted, abortIndex]
  all_goals first
    | (simp; done)
    | (simp; omega)
    | (simp only [bump_fields, enter_fields, corsContext_fields]; exact hm)

/-! ## The middleware contracts -/

/-- C1: `checkNickMiddleware` rejects exactly the requests without an identity.
When `Cookie("user")` fails or yields the empty string, the middleware answers
with status 403 and a JSON object with an `error` field, aborts, does not call
the next handler, and the handler loop invokes nothing after it; when the
cookie is present and non-empty, it hands the untouched context to the next
handler. -/
theorem checkNickMiddleware_gate (ch : ChatHandler) (next : Context → Option Context)
    (c : Context) :
    (noIdentity c.request →
      checkNickMiddleware next c = some ((c.JSON StatusForbidden forbiddenBody).Abort) ∧
      ((c.JSON StatusForbidden forbiddenBody).Abort).IsAborted = true ∧
      (c.writer.written = false →
        ((c.JSON StatusForbidden forbiddenBody).Abort).writer.status = 403 ∧
        ((c.JSON StatusForbidden forbiddenBody).Abort).writer.body =
          c.writer.body ++ [.json forbiddenBody]) ∧
      (∃ msg, forbiddenBody.lookup "error" = some msg) ∧
      (∀ (fuel i : Nat), c.index = i → c.handlers.get? i = some .checkNick →
        c.handlers.length ≤ 64 →
        ∃ c1, runLoop ch (fuel + 2) c = some c1 ∧ c1.ran = c.ran ++ [.checkNick] ∧
          c1.IsAborted = true)) ∧
    (∀ nick, c.Cookie "user" = .ok nick → nick ≠ "" →
      checkNickMiddleware next c = next c) := by
  refine ⟨fun hn => ⟨checkNick_reject next c hn, ?_, ?_, ?_, ?_⟩, ?_⟩
  · simp [Context.IsAborted]
  · intro hw
    have := json_forbidden c hw
    exact ⟨by simpa using this.1, by simpa using this.2.2⟩
  · exact ⟨_, rfl⟩
  · intro fuel i hi hf hlen
    refine ⟨_, runLoop_checkNick_reject ch fuel c i hi hf hlen hn, ?_, ?_⟩
    · simp
    · simp [Context.IsAborted, abortIndex]
  · intro nick h hne
    exact checkNick_pass next c nick h hne

/-- Witness for C1: a request without cookies is answered with 403, and a
request of user `bob` is passed on unchanged. -/
theorem checkNickMiddleware_gate_witness :
    checkNickMiddleware (fun _ => none) { request := { method := "GET", path := "/room" } } =
      some (({ request := { method := "GET", path := "/room" } } : Context).JSON
        StatusForbidden forbiddenBody).Abort ∧
    checkNickMiddleware some
        { request := { method := "GET", path := "/room", cookies := [("user", "bob")] } } =
      some { request := { method := "GET", path := "/room", cookies := [("user", "bob")] } } :=
  ⟨((checkNickMiddleware_gate ⟨fun _ _ w => w⟩ (fun _ => none)
      { request := { method := "GET", path := "/room" } }).1
      (Or.inl ⟨.ErrNoCookie, rfl⟩)).1,
   (checkNickMiddleware_gate ⟨fun _ _ w => w⟩ some
      { request := { method := "GET", path := "/room", cookies := [("user", "bob")] } }).2
      "bob" rfl (by decide)⟩

/-- C8: `corsMiddleware` adds the CORS headers exactly when the request names
an origin.  With a non-empty `Origin`, the context it aborts on or passes on
carries `Access-Control-Allow-Origin` equal to that origin and the three fixed
headers, and aborting keeps them; with an empty or absent `Origin`, it aborts
on or passes on the context it was given, response header untouched. -/
theorem corsMiddleware_cors_headers (next : Context → Option Context) (c : Context) :
    (c.request.header.Get "Origin" ≠ "" →
      corsMiddleware next c =
        (if c.request.method = MethodOptions then
          some ((withCorsHeader c).AbortWithStatus StatusOK)
         else next (withCorsHeader c)) ∧
      ((withCorsHeader c).AbortWithStatus StatusOK).writer.header =
        (withCorsHeader c).writer.header ∧
      (withCorsHeader c).writer.header.Get "Access-Control-Allow-Origin" =
        c.request.header.Get "Origin" ∧
      (withCorsHeader c).writer.header.Get "Access-Control-Allow-Credentials" = "true" ∧
      (withCorsHeader c).writer.header.Get "Access-Control-Allow-Methods" =
        "GET, POST, PATCH, PUT, DELETE, OPTIONS" ∧
      (withCorsHeader c).writer.header.Get "Access-Control-Allow-Headers" =
        "Origin, Content-Type, X-Auth-Token") ∧
    (c.request.header.Get "Origin" = "" →
      corsMiddleware next c =
        (if c.request.method = MethodOptions then some (c.AbortWithStatus StatusOK)
         else next c) ∧
      (c.AbortWithStatus StatusOK).writer.header = c.writer.header) := by
  constructor
  · intro ho
    refine ⟨?_, abortWithStatus_header _ _, ?_, ?_, ?_, ?_⟩
    · rw [corsMiddleware_eq]; simp [corsContext, ho]
    · simp only [withCorsHeader]
      rw [Header.get_set_of_ne _ _ _ _ (by decide), Header.get_set_of_ne _ _ _ _ (by decide),
        Header.get_set_of_ne _ _ _ _ (by decide), Header.get_set_same]
    · simp only [withCorsHeader]
      rw [Header.get_set_of_ne _ _ _ _ (by decide), Header.get_set_of_ne _ _ _ _ (by decide),
        Header.get_set_same]
    · simp only [withCorsHeader]
      rw [Header.get_set_of_ne _ _ _ _ (by decide), Header.get_set_same]
    · simp only [withCorsHeader]
      rw [Header.get_set_same]
  · intro ho
    refine ⟨?_, abortWithStatus_header _ _⟩
    rw [corsMiddleware_eq]; simp [corsContext, ho]

/-- Witness for C8: a request from origin `https://chat.example` gets that
origin echoed; a request without origin is passed on as it came. -/
theorem corsMiddleware_cors_headers_witness :
    (withCorsHeader { request := sampleRoomRequest }).writer.header.Get
        "Access-Control-Allow-Origin" = "https://chat.example" ∧
    (({ request := sampleAnonymousSend } : Context).AbortWithStatus StatusOK).writer.header =
      ({ request := sampleAnonymousSend } : Context).writer.header :=
  ⟨((corsMiddleware_cors_headers some { request := sampleRoomRequest }).1 (by decide)).2.2.1,
   ((corsMiddleware_cors_headers some { request := sampleAnonymousSend }).2 (by decide)).2⟩

/-- C9: preflight requests are answered by `corsMiddleware` alone.  On a
request with method OPTIONS the middleware aborts with status 200, whatever
the origin and the cookies, and the handler loop invokes nothing after it;
through the router of `main` every OPTIONS request ends with status 200 after
Logger, Recovery and the CORS middleware only.  On any other method the
middleware does not abort and calls the next handler. -/
theorem corsMiddleware_preflight (ch : ChatHandler) (next : Context → Option Context)
    (c : Context) (r : Request) (fuel : Nat) :
    (c.request.method = MethodOptions →
      corsMiddleware next c = some ((corsContext c).AbortWithStatus StatusOK) ∧
      ((corsContext c).AbortWithStatus StatusOK).IsAborted = true ∧
      (c.writer.written = false →
        ((corsContext c).AbortWithStatus StatusOK).writer.status = 200) ∧
      (∀ i : Nat, c.index = i → c.handlers.get? i = some .cors → c.handlers.length ≤ 64 →
        ∃ c1, runLoop ch (fuel + 2) c = some c1 ∧ c1.ran = c.ran ++ [.cors] ∧
          c1.IsAborted = true)) ∧
    (r.method = MethodOptions →
      ∃ e c1, mainRouter = some e ∧ handleHTTPRequest ch e (fuel + 4) r = some c1 ∧
        c1.writer.status = 200 ∧ c1.ran = [.logger, .recovery, .cors] ∧
        .checkNick ∉ c1.ran ∧ ∀ m, .chat m ∉ c1.ran) ∧
    (c.request.method ≠ MethodOptions →
      corsMiddleware next c = next (corsContext c) ∧
      (corsContext c).index = c.index ∧ (corsContext c).handlers = c.handlers ∧
      (corsContext c).request = c.request ∧ (corsContext c).ran = c.ran ∧
      (corsContext c).writer.status = c.writer.status ∧
      (corsContext c).writer.written = c.writer.written ∧
      (corsContext c).writer.body = c.writer.body) := by
  refine ⟨fun hm => ⟨?_, ?_, ?_, ?_⟩, ?_, ?_⟩
  · rw [corsMiddleware_eq, if_pos hm]
  · simp [Context.IsAborted]
  · intro hw
    exact abortWithStatus_status _ (by simpa using hw)
  · intro i hi hf hlen
    refine ⟨_, runLoop_cors_preflight ch fuel c i hi hf hlen hm, by simp, ?_⟩
    simp [Context.IsAborted, abortIndex]
  · intro hm
    obtain ⟨c1, h1, hst, hwr, hbody, hran, hab⟩ :=
      next_preflight_chain ch fuel r { status := 404 } [] hm rfl (by simp)
    have hm2 : r.method = "OPTIONS" := hm
    refine ⟨_, c1, mainRouter_eq, ?_, hst, hran, ?_, ?_⟩
    · simp only [handleHTTPRequest, Engine.lookup, serveError, hm2]
      simp [List.find?, h1, hwr]
    · simp [hran]
    · simp [hran]
  · intro hm
    refine ⟨?_, ?_⟩
    · rw [corsMiddleware_eq, if_neg hm]
    · simp

/-- Witness for C9: the sample preflight request is answered with 200 by the
router of `main`, and the sample room request passes the CORS middleware. -/
theorem corsMiddleware_preflight_witness :
    (∃ e c1, mainRouter = some e ∧
      handleHTTPRequest idleChatHandler e (0 + 4) samplePreflight = some c1 ∧
      c1.writer.status = 200 ∧ c1.ran = [.logger, .recovery, .cors] ∧
      .checkNick ∉ c1.ran ∧ ∀ m, .chat m ∉ c1.ran) ∧
    corsMiddleware some { request := sampleRoomRequest } =
      some (corsContext { request := sampleRoomRequest }) :=
  ⟨(corsMiddleware_preflight idleChatHandler some { request := samplePreflight }
      samplePreflight 0).2.1 rfl,
   ((corsMiddleware_preflight idleChatHandler some { request := sampleRoomRequest }
      samplePreflight 0).2.2 (by decide)).1⟩

/-! ## The routing table -/

/-- C2: every chat operation is cookie-gated by the routing table of `main`.
Each of the six chat routes is registered with the chain Logger, Recovery,
CORS, `checkNickMiddleware`, chat handler method; `GET /` is the only
registered route whose chain lacks `checkNickMiddleware`; and a request to a
chat route without identity ends with status 403 and the JSON error object,
no chat handler method having been invoked. -/
theorem chat_routes_cookie_gated (ch : ChatHandler) (fuel : Nat) (r : Request) :
    ∃ e, mainRouter = some e ∧
      e.trees.map (fun t => (t.method, t.path)) =
        ("GET", "/") :: chatRoutes.map (fun x => (x.1, x.2.1)) ∧
      (∀ x ∈ chatRoutes, (e.lookup x.1 x.2.1).map (fun t => t.handlers) =
        some [.logger, .recovery, .cors, .checkNick, .chat x.2.2]) ∧
      (∀ t ∈ e.trees, .checkNick ∉ t.handlers ↔ (t.method = "GET" ∧ t.path = "/")) ∧
      ((∃ m, (r.method, r.path, m) ∈ chatRoutes) → noIdentity r →
        ∃ c1, handleHTTPRequest ch e (fuel + 5) r = some c1 ∧
          c1.writer.status = 403 ∧ c1.writer.body = [.json forbiddenBody] ∧
          ∀ m, .chat m ∉ c1.ran) := by
  refine ⟨_, mainRouter_eq, by decide, by decide, by decide, ?_⟩
  rintro ⟨m, hmem⟩ hn
  have key : ∀ m : ChatMethod, r.method ≠ MethodOptions →
      ∃ c1, Context.Next ch (fuel + 5)
          { request := r, handlers := [.logger, .recovery, .cors, .checkNick, .chat m] } = some c1 ∧
        c1.writer.status = 403 ∧ c1.writer.body = [.json forbiddenBody] ∧
        ∀ m, .chat m ∉ c1.ran := by
    intro m hm
    obtain ⟨c1, h1, hst, hbody, hran⟩ := next_gated_chain ch fuel r m hm hn
    exact ⟨c1, h1, hst, hbody, by simp [hran]⟩
  simp only [chatRoutes, List.mem_cons, Prod.mk.injEq, List.mem_singleton, List.not_mem_nil,
    or_false] at hmem
  rcases hmem with ⟨hm, hp, -⟩ | ⟨hm, hp, -⟩ | ⟨hm, hp, -⟩ | ⟨hm, hp, -⟩ | ⟨hm, hp, -⟩ |
    ⟨hm, hp, -⟩
  all_goals
    simp only [handleHTTPRequest, Engine.lookup, hm, hp, List.find?]
    simp only [decide_eq_true_eq, and_self, and_true, true_and, String.reduceEq, decide_False,
      decide_True, and_false, false_and]
    exact key _ (by rw [hm]; decide)

/-- Witness for C2: the sample anonymous send is answered with 403 by the
router of `main`, without the chat handler being invoked. -/
theorem chat_routes_cookie_gated_witness :
    ∃ e, mainRouter = some e ∧
      ∃ c1, handleHTTPRequest idleChatHandler e (0 + 5) sampleAnonymousSend = some c1 ∧
        c1.writer.status = 403 ∧ c1.writer.body = [.json forbiddenBody] ∧
        ∀ m, .chat m ∉ c1.ran :=
  let ⟨e, he, _, _, _, h⟩ := chat_routes_cookie_gated idleChatHandler 0 sampleAnonymousSend
  ⟨e, he, h ⟨.SendMessage, by decide⟩ (Or.inl ⟨.ErrNoCookie, rfl⟩)⟩

/-! ## The lifecycle of `main`: what holds in every state -/

theorem inv_start (fs : FileSystem) (port : String) : Inv (start fs port) := by
  constructor <;> simp [start, MainPc.rank, ShutdownPc.called]

set_option maxHeartbeats 2000000 in
theorem inv_stepMain (s s1 : State) (h : stepMain s = some s1) (hi : Inv s) : Inv s1 := by
  obtain ⟨h1, h2, h3, h4, h5, h6, h7, h8, h9, h10, h11, h12, h13, h14⟩ := hi
  unfold stepMain at h
  cases hpc : s.mainPc <;> rw [hpc] at h <;> simp only at h
  all_goals (try split at h)
  all_goals (try (cases h))
  all_goals
    simp only [hpc, MainPc.rank] at h1 h2 h3 h4 h5 h6 h7 h8 h12 h13 h14
  all_goals (try simp only [Nat.reduceLT, true_implies, false_implies] at h2)
  all_goals (try (obtain ⟨q, hq1, hq2, hq3, hq4, hq5⟩ := h2))
  all_goals
    constructor <;> simp only [hpc, MainPc.rank, State.emit, State.Info, State.panic]
  all_goals first
    | (clear h1 h3 h4 h5 h6 h7 h8 h9 h10 h11 h12 h13 h14; simp; done)
    | assumption
    | (simp at h1 h3 h4 h5 h6 h7 h8 h12 ⊢; simp_all [ShutdownPc.called]; done)
    | (simp_all [ShutdownPc.called, State.chan, Chan.close]; done)
    | (simp at h1; obtain ⟨ha, hb⟩ := h1; simp [ha, makeChan]; done)
    | (rename_i i q1 he1 he2
       simp only [hq2, Option.some.injEq] at he1
       subst he1
       simp only [hq2, State.chan, hq1, List.get?, Option.bind, Chan.close] at he2
       split_ifs at he2 with hc
       cases he2
       simp_all
       done)

set_option maxHeartbeats 2000000 in
theorem inv_stepServe (s s1 : State) (fail : Option String) (h : stepServe s fail = some s1)
    (hi : Inv s) (hrun : s.status = .running) : Inv s1 := by
  obtain ⟨h1, h2, h3, h4, h5, h6, h7, h8, h9, h10, h11, h12, h13, h14⟩ := hi
  unfold stepServe at h
  cases hpc : s.servePc <;> rw [hpc] at h <;> simp only at h
  all_goals (try split at h)
  all_goals (try split_ifs at h)
  all_goals (try split at h)
  all_goals (try (cases h))
  all_goals
    constructor <;> simp only [State.emit, State.Info, State.panic]
  all_goals first
    | assumption
    | (simp_all [ShutdownPc.called]; done)
    | (rename_i srv hsrv hns _
       intro hc
       have h0 := h9 hc
       rw [hsrv] at h0
       cases h0
       simp at hns
       done)

set_option maxHeartbeats 2000000 in
theorem inv_stepShutdown (s s1 : State) (idle : Bool) (h : stepShutdown s idle = some s1)
    (hi : Inv s) (hrun : s.status = .running) : Inv s1 := by
  obtain ⟨h1, h2, h3, h4, h5, h6, h7, h8, h9, h10, h11, h12, h13, h14⟩ := hi
  unfold stepShutdown at h
  cases hpc : s.shutdownPc <;> rw [hpc] at h <;> simp only at h
  all_goals (try split_ifs at h)
  all_goals (try split at h)
  all_goals (try split_ifs at h)
  all_goals (try (cases h))
  all_goals
    constructor <;> simp only [State.emit, State.Info, State.Error, State.panic]
  all_goals first
    | assumption
    | (simp_all [ShutdownPc.called]; done)
    | (split_ifs at h7 <;> simp_all <;> omega)
    | (intro _
       have hr : 7 < s.mainPc.rank := by
         have := h6.not.mp (by simp [hpc])
         omega
       have hs := h4.mpr hr
       cases hv : s.srv with
       | none => simp [hv] at hs
       | some v => rfl)

theorem inv_stepSignal (s s1 : State) (h : stepSignal s = some s1) (hi : Inv s)
    (hrun : s.status = .running) : Inv s1 := by
  obtain ⟨h1, h2, h3, h4, h5, h6, h7, h8, h9, h10, h11, h12, h13, h14⟩ := hi
  unfold stepSignal at h
  split at h
  · cases h
    constructor <;> first | assumption | (simp_all; done)
  · split at h <;> cases h <;> constructor <;> assumption

theorem inv_stepTick (s s1 : State) (h : stepTick s = some s1) (hi : Inv s) : Inv s1 := by
  obtain ⟨h1, h2, h3, h4, h5, h6, h7, h8, h9, h10, h11, h12, h13, h14⟩ := hi
  unfold stepTick at h
  cases h
  constructor <;> assumption

theorem inv_stepAccept (s s1 : State) (m : Messages) (h : stepAccept s m = some s1)
    (hi : Inv s) : Inv s1 := by
  obtain ⟨h1, h2, h3, h4, h5, h6, h7, h8, h9, h10, h11, h12, h13, h14⟩ := hi
  unfold stepAccept at h
  split at h
  · split_ifs at h
    cases h
    constructor <;> assumption
  · cases h

theorem chan_send_sent {α : Type} (q q1 : Chan α) (x : α) (h : q.send x = .sent q1) :
    q.closed = false ∧ q.buf.length < q.cap ∧ q1 = { q with buf := q.buf ++ [x] } := by
  unfold Chan.send at h
  split_ifs at h with hc hl
  · cases h
    exact ⟨by simpa using hc, hl, rfl⟩

theorem chan_recv_some {α : Type} (q q1 : Chan α) (x : α) (h : q.recv = some (x, q1)) :
    q.buf = x :: q1.buf ∧ q1.cap = q.cap ∧ q1.closed = q.closed := by
  unfold Chan.recv at h
  split at h
  · cases h
  · cases h
    rename_i hb
    exact ⟨hb, rfl, rfl⟩

theorem inv_stepEnqueue (s s1 : State) (m : Messages) (h : stepEnqueue s m = some s1)
    (hi : Inv s) : Inv s1 := by
  obtain ⟨h1, h2, h3, h4, h5, h6, h7, h8, h9, h10, h11, h12, h13, h14⟩ := hi
  unfold stepEnqueue at h
  split_ifs at h with hmem
  split at h
  · rename_i i q hhq hq
    split at h
    · rename_i q1 hsend
      cases h
      obtain ⟨hc, hlen, rfl⟩ := chan_send_sent _ _ _ hsend
      have hr : 4 < s.mainPc.rank := by
        by_contra hcon
        rw [if_neg hcon] at h3
        rw [h3] at hhq
        cases hhq
      rw [if_pos hr] at h3
      rw [hhq] at h3
      cases h3
      obtain ⟨q0, hq1, hq2, hq3, hq4, hq5⟩ := h2 (by omega)
      rw [hhq] at hq
      simp only [State.chan, hq1, List.get?, Option.some.injEq] at hq
      subst hq
      constructor <;> simp only [State.emit]
      all_goals first
        | assumption
        | (intro hle; omega)
        | (rw [if_pos hr]; exact hhq)
        | (intro _
           refine ⟨{ q0 with buf := q0.buf ++ [m] }, by rw [hq1]; rfl, hq2, hq3, ?_, hq5⟩
           simp only [List.length_append, List.length_singleton]
           omega)
    · cases h
    · cases h
      constructor <;> assumption
  · cases h

theorem inv_stepWorker (s s1 : State) (h : stepWorker s = some s1)
    (hi : Inv s) : Inv s1 := by
  obtain ⟨h1, h2, h3, h4, h5, h6, h7, h8, h9, h10, h11, h12, h13, h14⟩ := hi
  unfold stepWorker at h
  split at h
  · rename_i i m q1 hhq hq
    cases h
    have hr : 4 < s.mainPc.rank := by
      by_contra hcon
      rw [if_neg hcon] at h3
      rw [h3] at hhq
      cases hhq
    rw [if_pos hr] at h3
    rw [hhq] at h3
    cases h3
    obtain ⟨q0, hq1, hq2, hq3, hq4, hq5⟩ := h2 (by omega)
    rw [hhq] at hq
    simp only [State.chan, hq1, List.get?, Option.bind] at hq
    obtain ⟨hb, hcap, hcl⟩ := chan_recv_some _ _ _ hq
    constructor <;> simp only [State.emit]
    all_goals first
      | assumption
      | (intro hle; omega)
      | (rw [if_pos hr]; exact hhq)
      | (intro _
         refine ⟨q1, by rw [hq1]; rfl, hq2, by rw [hcap]; exact hq3, ?_, by rw [hcl]; exact hq5⟩
         rw [hb] at hq4
         simp only [List.length_cons] at hq4
         omega)
  · cases h

theorem step_running (s s1 : State) (a : Act) (h : step s a = some s1) :
    s.status = .running := by
  unfold step at h
  split_ifs at h with hr
  simpa using hr

theorem inv_step (s s1 : State) (a : Act) (h : step s a = some s1) (hi : Inv s) : Inv s1 := by
  have hrun := step_running s s1 a h
  unfold step at h
  rw [if_neg (by simp [hrun])] at h
  cases a with
  | main => exact inv_stepMain s s1 h hi
  | serve fail => exact inv_stepServe s s1 fail h hi hrun
  | shutdown idle => exact inv_stepShutdown s s1 idle h hi hrun
  | signal => exact inv_stepSignal s s1 h hi hrun
  | tick => exact inv_stepTick s s1 h hi
  | accept m => exact inv_stepAccept s s1 m h hi
  | enqueue m => exact inv_stepEnqueue s s1 m h hi
  | worker => exact inv_stepWorker s s1 h hi

theorem inv_exec (acts : List Act) :
    ∀ (s s1 : State), exec s acts = some s1 → Inv s → Inv s1 := by
  induction acts with
  | nil => intro s s1 h hi; cases h; exact hi
  | cons a rest ih =>
    intro s s1 h hi
    simp only [exec] at h
    split at h
    · rename_i s2 hs
      exact ih s2 s1 h (inv_step s s2 a hs hi)
    · cases h
theorem seen_snoc (evs : List Event) (x : Event) : seen (evs ++ [x]) = (seen evs).add x := by
  simp [seen, List.foldl_append]

theorem logSeen_snoc (logs : List LogEntry) (e : LogEntry) :
    logSeen (logs ++ [e]) = (logSeen logs).add e := by
  simp [logSeen, List.foldl_append]

/-- The entry of line 56 is neither the entry of line 67 nor that of line 80,
whatever the port. -/
theorem started_ne (port : String) :
    "Server started at http://localhost:" ++ port ≠ "Server exited gracefully" ∧
    "Server started at http://localhost:" ++ port ≠ "Shutting down server..." := by
  constructor <;> intro h <;> have h1 := congrArg String.data h <;>
    simp [String.data_append] at h1

theorem add_started (m : LogSeen) (port : String) :
    m.add ⟨.info, "Server started at http://localhost:" ++ port, none⟩ = m := by
  simp [LogSeen.add, exitEntry, shuttingDownEntry, started_ne port]

theorem add_mkdirFailed (m : LogSeen) (err : String) :
    m.add ⟨.info, "can not create messages dis", some err⟩ = m := by
  simp [LogSeen.add, exitEntry, shuttingDownEntry]

theorem known_snoc (port : String) (logs : List LogEntry) (l : LogEntry)
    (h : ∀ e ∈ logs, e.known port) (hl : l.known port) : ∀ e ∈ logs ++ [l], e.known port := by
  intro e he
  rcases List.mem_append.mp he with he | he
  · exact h e he
  · rw [List.mem_singleton.mp he]; exact hl

theorem errorLogged_snoc (logs : List LogEntry) (evs : List Event) (l : LogEntry)
    (x : List Event)
    (h : ∀ e ∈ logs, e.level = .error →
      ∃ err : HttpError, e = ⟨.error, "failed to shutdown server", some err.text⟩ ∧
        .shutdownReturned (some err) ∈ evs)
    (hl : l.level = .error →
      ∃ err : HttpError, l = ⟨.error, "failed to shutdown server", some err.text⟩ ∧
        .shutdownReturned (some err) ∈ evs ++ x) :
    ∀ e ∈ logs ++ [l], e.level = .error →
      ∃ err : HttpError, e = ⟨.error, "failed to shutdown server", some err.text⟩ ∧
        .shutdownReturned (some err) ∈ evs ++ x := by
  intro e he hlev
  rcases List.mem_append.mp he with he | he
  · obtain ⟨err, h1, h2⟩ := h e he hlev
    exact ⟨err, h1, List.mem_append_left _ h2⟩
  · rw [List.mem_singleton.mp he] at hlev ⊢
    exact hl hlev

set_option maxHeartbeats 4000000 in
theorem trace_stepMain (fs0 : FileSystem) (s s1 : State) (h : stepMain s = some s1)
    (hi : Inv s) (ht : Trace fs0 s) : Trace fs0 s1 := by
  obtain ⟨h1, h2, h3, h4, h5, h6, h7, h8, h9, h10, h11, h12, h13, h14⟩ := hi
  obtain ⟨t1, u1, u2, t2, t3, t4, t5, t6, t7⟩ := ht
  unfold stepMain at h
  cases hpc : s.mainPc <;> rw [hpc] at h <;> simp only at h
  all_goals (try split at h)
  all_goals (try (cases h))
  all_goals
    simp only [expectedSeen, expectedLogSeen, hpc, MainPc.rank] at h6 h8 t1 u1
  all_goals (try simp only [Nat.reduceLeDiff, forall_const, false_implies, true_implies] at h8)
  all_goals (try simp only [Nat.reduceLeDiff, iff_true, iff_false] at h6)
  all_goals
    constructor <;>
      simp only [hpc, MainPc.rank, State.emit, State.Info, State.panic, expectedSeen, seen_snoc,
        expectedLogSeen, logSeen_snoc, add_mkdirFailed]
  all_goals first
    | assumption
    | (rw [u1]; simp [LogSeen.add, exitEntry, shuttingDownEntry]; done)
    | (rw [u1]; simp [LogSeen.add, exitEntry, shuttingDownEntry, h6, ShutdownPc.exitLogged]; done)
    | (simpa using u2)
    | (rw [t1]; simp [Seen.add]; done)
    | (rw [t1]; simp [Seen.add, h8, ShutdownPc.called, ShutdownPc.returned]; done)
    | (rw [t1]; simp [Seen.add, h6, ShutdownPc.called, ShutdownPc.returned]; done)
    | (simpa using t2)
    | (simpa using t4)
    | (simpa using t5)
    | (simpa using t7)
    | (apply known_snoc _ _ _ t3; simp [LogEntry.known]; done)
    | (intro e he hlev
       simp only [List.mem_append, List.mem_singleton] at he
       rcases he with he | he
       · exact t4 e he hlev
       · subst he
         cases hlev)
    | (apply errorLogged_snoc s.logs s.events _ _ t4; simp; done)
    | (rename_i fs1 hmk
       simp only [FileSystem.Mkdir] at hmk
       split_ifs at hmk
       cases hmk
       simp; done)
    | (intro err hmem
       have := t5 err hmem
       rw [h6] at this
       simpa using this)
    | (clear h1 h2 h3 h4 h5 h6 h7 h9 h10 h11 h12 h13 h14 t1 u1; simp_all [LogEntry.known]; done)
set_option maxHeartbeats 4000000 in
theorem trace_stepServe (fs0 : FileSystem) (s s1 : State) (fail : Option String)
    (h : stepServe s fail = some s1) (ht : Trace fs0 s) : Trace fs0 s1 := by
  obtain ⟨t1, u1, u2, t2, t3, t4, t5, t6, t7⟩ := ht
  unfold stepServe at h
  cases hpc : s.servePc <;> rw [hpc] at h <;> simp only at h
  all_goals (try split at h)
  all_goals (try split_ifs at h)
  all_goals (try split at h)
  all_goals (try (cases h))
  all_goals
    constructor <;>
      simp only [State.emit, State.Info, State.panic, expectedSeen, seen_snoc, expectedLogSeen,
        logSeen_snoc, add_started]
  all_goals first
    | assumption
    | (simp only [expectedSeen] at t1; rw [t1]; simp [Seen.add]; done)
    | (simpa using u2)
    | (simpa using t2)
    | (simpa using t4)
    | (simpa using t5)
    | (simpa using t7)
    | (apply known_snoc _ _ _ t3; simp [LogEntry.known]; done)
    | (intro e he hlev
       simp only [List.mem_append, List.mem_singleton] at he
       rcases he with he | he
       · exact t4 e he hlev
       · subst he
         cases hlev)
    | (intro hh; have h0 := t6 hh; simp [h0]; done)

set_option maxHeartbeats 4000000 in
theorem trace_stepShutdown (fs0 : FileSystem) (s s1 : State) (idle : Bool)
    (h : stepShutdown s idle = some s1) (hi : Inv s) (ht : Trace fs0 s) : Trace fs0 s1 := by
  obtain ⟨h1, h2, h3, h4, h5, h6, h7, h8, h9, h10, h11, h12, h13, h14⟩ := hi
  obtain ⟨t1, u1, u2, t2, t3, t4, t5, t6, t7⟩ := ht
  unfold stepShutdown at h
  cases hpc : s.shutdownPc <;> rw [hpc] at h <;> simp only at h
  all_goals (try split_ifs at h)
  all_goals (try split at h)
  all_goals (try split_ifs at h)
  all_goals (try (cases h))
  all_goals
    simp only [expectedSeen, expectedLogSeen, hpc] at h6 t1 u1 t5 t6 t7
  all_goals
    constructor <;>
      simp only [State.emit, State.Info, State.Error, State.panic, expectedSeen, seen_snoc,
        expectedLogSeen, logSeen_snoc]
  all_goals first
    | assumption
    | (rw [u1]; simp [LogSeen.add, exitEntry, shuttingDownEntry, ShutdownPc.exitLogged]; done)
    | (rw [u1]; simp [LogSeen.add, exitEntry, shuttingDownEntry, ShutdownPc.exitLogged] at h6 ⊢
       omega)
    | (simpa using u2)
    | (rename_i c hc
       intro d hd
       simp only [List.mem_append, List.mem_singleton, Event.shutdownCalled.injEq] at hd
       rcases hd with hd | hd
       · exact u2 d hd
       · rw [hd]; exact h11 c hc)
    | (rw [t1]; simp [Seen.add, ShutdownPc.called, ShutdownPc.returned]; done)
    | (rw [t1]; simp [Seen.add, ShutdownPc.called, ShutdownPc.returned] at h6 ⊢; omega)
    | (simpa using t2)
    | (simpa using t4)
    | (simpa using t5)
    | (apply known_snoc _ _ _ t3; simp [LogEntry.known]; done)
    | (intro e he hlev
       simp only [List.mem_append, List.mem_singleton] at he
       rcases he with he | he
       · exact t4 e he hlev
       · subst he
         cases hlev)
    | (intro e he hl
       have h0 := t4 e he hl
       obtain ⟨err, e1, e2⟩ := h0
       exact ⟨err, e1, by simp [e2]⟩)
    | (intro err hm
       simp only [List.mem_append, List.mem_singleton, Event.shutdownReturned.injEq,
         Option.some.injEq] at hm
       rcases hm with hm | hm
       · rcases t5 err hm with h0 | h0
         · cases h0
         · exact Or.inr h0
       · subst hm
         exact Or.inl rfl)
    | (intro e he hlev
       simp only [List.mem_append, List.mem_singleton] at he
       rcases he with he | he
       · exact t4 e he hlev
       · subst he
         exact ⟨_, rfl, t7 _ rfl⟩)
    | (intro err hm
       rcases t5 err hm with h0 | h0
       · cases h0
         exact Or.inr (by simp)
       · exact Or.inr (by simp [h0]))
    | (intro _; simpa using t6)
/-- A step that appends one event the monitor lets pass and changes neither
the log nor where the goroutines stand keeps the trace invariant. -/
theorem trace_emit (fs0 : FileSystem) (s s1 : State) (x : Event)
    (hev : s1.events = s.events ++ [x]) (hlogs : s1.logs = s.logs) (hfs : s1.fs = s.fs)
    (hport : s1.port = s.port) (hm : s1.mainPc = s.mainPc) (hs : s1.shutdownPc = s.shutdownPc)
    (hadd : (expectedSeen s).add x = expectedSeen s)
    (hx1 : x ≠ .mkdirDone true) (hx2 : ∀ d, x ≠ .shutdownCalled d)
    (hx3 : ∀ err, x ≠ .shutdownReturned err)
    (ht : Trace fs0 s) : Trace fs0 s1 := by
  obtain ⟨t1, u1, u2, t2, t3, t4, t5, t6, t7⟩ := ht
  have hmem : ∀ y : Event, y ≠ x → (y ∈ s1.events ↔ y ∈ s.events) := by
    intro y hy
    rw [hev]
    simp [hy]
  constructor
  · rw [hev, seen_snoc, t1, hadd]
    simp only [expectedSeen, hm, hs]
  · rw [hlogs, u1]
    simp only [expectedLogSeen, hm, hs]
  · intro d hd
    exact u2 d ((hmem _ (fun h0 => hx2 d h0.symm)).mp hd)
  · rw [hfs, t2, hmem _ (fun h0 => hx1 h0.symm)]
  · rw [hlogs, hport]; exact t3
  · rw [hlogs]
    intro e he hlev
    obtain ⟨err, e1, e2⟩ := t4 e he hlev
    exact ⟨err, e1, (hmem _ (fun h0 => hx3 _ h0.symm)).mpr e2⟩
  · intro err hmem1
    rw [hs, hlogs]
    exact t5 err ((hmem _ (fun h0 => hx3 _ h0.symm)).mp hmem1)
  · rw [hs, hlogs]; exact t6
  · intro err hsd
    rw [hs] at hsd
    exact (hmem _ (fun h0 => hx3 _ h0.symm)).mpr (t7 err hsd)

theorem trace_stepSignal (fs0 : FileSystem) (s s1 : State) (h : stepSignal s = some s1)
    (ht : Trace fs0 s) : Trace fs0 s1 := by
  obtain ⟨t1, u1, u2, t2, t3, t4, t5, t6, t7⟩ := ht
  unfold stepSignal at h
  split at h
  · cases h
    constructor <;> assumption
  · split at h <;> cases h <;> constructor <;> assumption

theorem trace_stepTick (fs0 : FileSystem) (s s1 : State) (h : stepTick s = some s1)
    (ht : Trace fs0 s) : Trace fs0 s1 := by
  obtain ⟨t1, u1, u2, t2, t3, t4, t5, t6, t7⟩ := ht
  unfold stepTick at h
  cases h
  constructor <;> assumption

theorem trace_stepAccept (fs0 : FileSystem) (s s1 : State) (m : Messages)
    (h : stepAccept s m = some s1) (hi : Inv s) (ht : Trace fs0 s) : Trace fs0 s1 := by
  unfold stepAccept at h
  split at h
  · rename_i srv hsrv
    split_ifs at h with hl
    cases h
    have hcalled : s.shutdownPc.called = false := by
      cases hc : s.shutdownPc.called with
      | false => rfl
      | true =>
        have h0 := hi.closedServer hc
        rw [hsrv] at h0
        cases h0
        cases hl
    exact trace_emit fs0 s _ (.requestAccepted m) rfl rfl rfl rfl rfl rfl
      (by simp [expectedSeen, Seen.add, hcalled]) (by simp) (by simp) (by simp) ht
  · cases h

theorem trace_stepEnqueue (fs0 : FileSystem) (s s1 : State) (m : Messages)
    (h : stepEnqueue s m = some s1) (ht : Trace fs0 s) : Trace fs0 s1 := by
  unfold stepEnqueue at h
  split_ifs at h with hmem
  split at h
  · split at h
    · cases h
      exact trace_emit fs0 s _ (.sendAccepted m) rfl rfl rfl rfl rfl rfl
        (by simp [expectedSeen, Seen.add]) (by simp) (by simp) (by simp) ht
    · cases h
    · cases h
      exact trace_emit fs0 s _ (.sendRefused m) rfl rfl rfl rfl rfl rfl
        (by simp [expectedSeen, Seen.add]) (by simp) (by simp) (by simp) ht
  · cases h

theorem trace_stepWorker (fs0 : FileSystem) (s s1 : State)
    (h : stepWorker s = some s1) (ht : Trace fs0 s) : Trace fs0 s1 := by
  unfold stepWorker at h
  split at h
  · cases h
    exact trace_emit fs0 s _ (.writeDone _ _) rfl rfl rfl rfl rfl rfl
      (by simp [expectedSeen, Seen.add]) (by simp) (by simp) (by simp) ht
  · cases h

theorem trace_start (fs0 : FileSystem) (port : String) : Trace fs0 (start fs0 port) := by
  constructor <;> simp [start, seen, expectedSeen, MainPc.rank, ShutdownPc.called,
    ShutdownPc.returned, logSeen, expectedLogSeen, ShutdownPc.exitLogged]

theorem trace_step (fs0 : FileSystem) (s s1 : State) (a : Act) (h : step s a = some s1)
    (hi : Inv s) (ht : Trace fs0 s) : Trace fs0 s1 := by
  have hrun := step_running s s1 a h
  unfold step at h
  rw [if_neg (by simp [hrun])] at h
  cases a with
  | main => exact trace_stepMain fs0 s s1 h hi ht
  | serve fail => exact trace_stepServe fs0 s s1 fail h ht
  | shutdown idle => exact trace_stepShutdown fs0 s s1 idle h hi ht
  | signal => exact trace_stepSignal fs0 s s1 h ht
  | tick => exact trace_stepTick fs0 s s1 h ht
  | accept m => exact trace_stepAccept fs0 s s1 m h hi ht
  | enqueue m => exact trace_stepEnqueue fs0 s s1 m h ht
  | worker => exact trace_stepWorker fs0 s s1 h ht

theorem trace_exec (fs0 : FileSystem) (acts : List Act) :
    ∀ (s s1 : State), exec s acts = some s1 → Inv s → Trace fs0 s → Inv s1 ∧ Trace fs0 s1 := by
  induction acts with
  | nil => intro s s1 h hi ht; cases h; exact ⟨hi, ht⟩
  | cons a rest ih =>
    intro s s1 h hi ht
    simp only [exec] at h
    split at h
    · rename_i s2 hs
      exact ih s2 s1 h (inv_step s s2 a hs hi) (trace_step fs0 s s2 a hs hi ht)
    · cases h

/-- Every state the process can reach satisfies both invariants. -/
theorem reach_inv (fs0 : FileSystem) (port : String) (acts : List Act) (s : State)
    (h : exec (start fs0 port) acts = some s) : Inv s ∧ Trace fs0 s :=
  trace_exec fs0 acts _ s h (inv_start fs0 port) (trace_start fs0 port)
/-! ## The monitor and the order of events -/

theorem seen_append (pre post : List Event) :
    seen (pre ++ post) = post.foldl Seen.add (seen pre) := by
  simp [seen, List.foldl_append]

theorem add_ok (m : Seen) (x : Event) (h : (m.add x).ok = true) : m.ok = true := by
  cases x <;> simp [Seen.add] at h <;> first | exact h | (simp [h])

theorem foldl_ok (post : List Event) :
    ∀ m : Seen, (post.foldl Seen.add m).ok = true → m.ok = true := by
  induction post with
  | nil => intro m h; exact h
  | cons x rest ih => intro m h; exact add_ok m x (ih _ h)

/-- When the monitor accepts a trace, it accepts every event of the trace at
the point where it comes. -/
theorem seen_ok_at (evs pre post : List Event) (e : Event) (h : (seen evs).ok = true)
    (hsp : evs = pre ++ e :: post) : ((seen pre).add e).ok = true := by
  subst hsp
  rw [seen_append] at h
  exact foldl_ok post _ h

theorem seen_mkdirs (evs : List Event) :
    (seen evs).mkdirs = evs.count (.mkdirDone true) + evs.count (.mkdirDone false) := by
  induction evs using List.reverseRecOn with
  | nil => simp [seen]
  | append_singleton l x ih =>
    rw [seen_snoc]
    cases x with
    | mkdirDone ok =>
      cases ok <;> simp [Seen.add, ih, List.count_append, List.count_singleton] <;> omega
    | _ => simp [Seen.add, ih, List.count_append, List.count_singleton]

theorem seen_mkdirs_pos (evs : List Event) (h : 1 ≤ (seen evs).mkdirs) :
    ∃ ok, .mkdirDone ok ∈ evs := by
  rw [seen_mkdirs] at h
  by_cases ht : 0 < evs.count (.mkdirDone true)
  · exact ⟨true, List.count_pos_iff.mp ht⟩
  · exact ⟨false, List.count_pos_iff.mp (by omega)⟩

theorem logAdd_ok (m : LogSeen) (e : LogEntry) (h : (m.add e).ok = true) : m.ok = true := by
  unfold LogSeen.add at h
  split_ifs at h
  · simp only [Bool.and_eq_true] at h; exact h.1.1
  · simp only [Bool.and_eq_true] at h; exact h.1
  · exact h
  · exact h

theorem logFoldl_ok (post : List LogEntry) :
    ∀ m : LogSeen, (post.foldl LogSeen.add m).ok = true → m.ok = true := by
  induction post with
  | nil => intro m h; exact h
  | cons x rest ih => intro m h; exact logAdd_ok m x (ih _ h)

/-- When the log monitor accepts a log, it accepts every entry of the log at
the point where it comes. -/
theorem logSeen_ok_at (logs pre post : List LogEntry) (e : LogEntry)
    (h : (logSeen logs).ok = true) (hsp : logs = pre ++ e :: post) :
    ((logSeen pre).add e).ok = true := by
  subst hsp
  have h1 : logSeen (pre ++ e :: post) = post.foldl LogSeen.add ((logSeen pre).add e) := by
    simp [logSeen, List.foldl_append]
  rw [h1] at h
  exact logFoldl_ok post _ h

theorem logSeen_exit (logs : List LogEntry) :
    (logSeen logs).exit = true ↔ exitEntry ∈ logs := by
  induction logs using List.reverseRecOn with
  | nil => simp [logSeen]
  | append_singleton l x ih =>
    rw [logSeen_snoc]
    unfold LogSeen.add
    split_ifs with h1 h2 h3
    · have hne : exitEntry ≠ x := by
        intro h0; rw [← h0] at h1; cases h1
      simp [ih, hne]
    · simp [h2]
    · have hne : exitEntry ≠ x := fun h0 => h2 h0.symm
      simp [ih, hne]
    · have hne : exitEntry ≠ x := fun h0 => h2 h0.symm
      simp [ih, hne]

theorem logSeen_shut (logs : List LogEntry) :
    (logSeen logs).shut = true ↔ shuttingDownEntry ∈ logs := by
  induction logs using List.reverseRecOn with
  | nil => simp [logSeen]
  | append_singleton l x ih =>
    rw [logSeen_snoc]
    unfold LogSeen.add
    split_ifs with h1 h2 h3
    · have hne : shuttingDownEntry ≠ x := by
        intro h0; rw [← h0] at h1; cases h1
      simp [ih, hne]
    · have hne : shuttingDownEntry ≠ x := by
        intro h0; rw [← h0] at h2; revert h2; decide
      simp [ih, hne]
    · simp [h3]
    · have hne : shuttingDownEntry ≠ x := fun h0 => h3 h0.symm
      simp [ih, hne]
/-! ## The queue -/

theorem sendAll_fits {α : Type} (ms : List α) :
    ∀ q : Chan α, q.closed = false → q.buf.length + ms.length ≤ q.cap →
      q.sendAll ms = some { q with buf := q.buf ++ ms } := by
  induction ms with
  | nil => intro q _ _; simp [Chan.sendAll]
  | cons x rest ih =>
    intro q hc hl
    simp only [List.length_cons] at hl
    have hs : q.send x = .sent { q with buf := q.buf ++ [x] } := by
      simp [Chan.send, hc]
      omega
    simp only [Chan.sendAll, hs]
    have h0 := ih { q with buf := q.buf ++ [x] } hc
      (by simp only [List.length_append, List.length_singleton]; omega)
    rw [h0]
    simp

/-- C3: the message queue has fixed capacity 10.  In every state of the
process there is at most one channel of `models.Messages`, made by `main` with
`make(chan models.Messages, 10)` and never holding more than 10 messages; once
line 27 has run there is exactly one, and it is the channel `msgCh` refers to;
the chat handler is built with that same channel; and on a channel so made 10
sends with no receive in between are all buffered, after which an 11th send
blocks. -/
theorem queue_capacity_ten (fs0 : FileSystem) (port : String) (acts : List Act) (s : State)
    (ms : List Messages) (m : Messages) (h : exec (start fs0 port) acts = some s) :
    s.queues.length ≤ 1 ∧
    (∀ q ∈ s.queues, q.cap = 10 ∧ q.buf.length ≤ 10) ∧
    (s.status = .running → s.mainPc = .makeQueue →
      ∃ s1, step s .main = some s1 ∧ s1.queues = [makeChan Messages 10] ∧
        s1.msgCh = some 0) ∧
    (2 < s.mainPc.rank → s.queues.length = 1 ∧ s.msgCh = some 0) ∧
    (∀ i, s.handlerQueue = some i → s.msgCh = some i) ∧
    (4 < s.mainPc.rank → s.handlerQueue = s.msgCh ∧ (s.chan s.handlerQueue).isSome = true) ∧
    (ms.length = 10 →
      ∃ q, (makeChan Messages 10).sendAll ms = some q ∧ q.buf = ms ∧ q.send m = .blocks) := by
  obtain ⟨hi, -⟩ := reach_inv fs0 port acts s h
  obtain ⟨h1, h2, h3, h4, h5, h6, h7, h8, h9, h10, h11, h12⟩ := hi
  have hq : s.mainPc.rank ≤ 2 ∨ 2 < s.mainPc.rank := by omega
  refine ⟨?_, ?_, ?_, ?_, ?_, ?_, ?_⟩
  · rcases hq with hq | hq
    · simp [(h1 hq).1]
    · obtain ⟨q, hq1, -⟩ := h2 hq
      simp [hq1]
  · intro q hmem
    rcases hq with hq | hq
    · rw [(h1 hq).1] at hmem; cases hmem
    · obtain ⟨q0, hq1, -, hq3, hq4, -⟩ := h2 hq
      rw [hq1] at hmem
      simp only [List.mem_singleton] at hmem
      subst hmem
      exact ⟨hq3, hq4⟩
  · intro hrun hpc
    have hr : s.mainPc.rank ≤ 2 := by rw [hpc]; decide
    obtain ⟨ha, hb⟩ := h1 hr
    refine ⟨_, by simp only [step, hrun, stepMain, hpc]; rfl, ?_, ?_⟩
    · simp [State.emit, ha]
    · simp [State.emit, ha]
  · intro hr
    obtain ⟨q0, hq1, hq2, -⟩ := h2 hr
    exact ⟨by simp [hq1], hq2⟩
  · intro i hh
    rw [h3] at hh
    split_ifs at hh with hr
    cases hh
    obtain ⟨q0, -, hq2, -⟩ := h2 (by omega)
    exact hq2
  · intro hr
    obtain ⟨q0, hq1, hq2, -⟩ := h2 (by omega)
    rw [h3, if_pos hr, hq2]
    exact ⟨rfl, by simp [State.chan, hq1]⟩
  · intro hlen
    refine ⟨{ cap := 10, buf := ms }, ?_, rfl, ?_⟩
    · rw [sendAll_fits ms (makeChan Messages 10) rfl (by simp [makeChan, hlen])]
      simp [makeChan]
    · simp [Chan.send, hlen]
/-- Witness for C3: after startup, ten sends are buffered with the worker
idle, and the handler of an eleventh request cannot proceed with its send. -/
theorem queue_capacity_ten_witness :
    exec (start freshStorage "8080") tenSends = some (endOf tenSends) ∧
    (endOf tenSends).unwritten.length = 10 ∧
    exec (start freshStorage "8080") elevenRequests = some (endOf elevenRequests) ∧
    (endOf elevenRequests).inflight = [otherMessage] ∧
    step (endOf elevenRequests) (.enqueue otherMessage) = none ∧
    (endOf tenSends).queues.length ≤ 1 ∧
    ∃ q, (makeChan Messages 10).sendAll (List.replicate 10 sampleMessage) = some q ∧
      q.buf = List.replicate 10 sampleMessage ∧ q.send otherMessage = .blocks :=
  ⟨by decide, by decide, by decide, by decide, by decide,
   (queue_capacity_ten freshStorage "8080" tenSends (endOf tenSends)
      (List.replicate 10 sampleMessage) otherMessage (by decide)).1,
   (queue_capacity_ten freshStorage "8080" tenSends (endOf tenSends)
      (List.replicate 10 sampleMessage) otherMessage (by decide)).2.2.2.2.2.2 (by decide)⟩

/-! ## The order of events in every run -/

theorem reach_ok (fs0 : FileSystem) (port : String) (acts : List Act) (s : State)
    (h : exec (start fs0 port) acts = some s) : (seen s.events).ok = true := by
  rw [(reach_inv fs0 port acts s h).2.monitor]
  rfl

theorem stop_after_mkdir (fs0 : FileSystem) (port : String) (acts : List Act) (s : State)
    (h : exec (start fs0 port) acts = some s) (pre post : List Event)
    (hsp : s.events = pre ++ .stopReceived :: post) : ∃ ok, .mkdirDone ok ∈ pre := by
  have h0 := seen_ok_at _ _ _ _ (reach_ok fs0 port acts s h) hsp
  simp only [Seen.add, Bool.and_eq_true, decide_eq_true_eq] at h0
  exact seen_mkdirs_pos pre h0.2

theorem reach_log_ok (fs0 : FileSystem) (port : String) (acts : List Act) (s : State)
    (h : exec (start fs0 port) acts = some s) : (logSeen s.logs).ok = true := by
  rw [(reach_inv fs0 port acts s h).2.logMonitor]
  rfl

/-- An error entry comes after the entry of line 67 and before any entry of
line 80. -/
theorem error_entry_place (fs0 : FileSystem) (port : String) (acts : List Act) (s : State)
    (h : exec (start fs0 port) acts = some s) (pre post : List LogEntry) (e : LogEntry)
    (hsp : s.logs = pre ++ e :: post) (hlev : e.level = .error) :
    shuttingDownEntry ∈ pre ∧ exitEntry ∉ pre := by
  have h0 := logSeen_ok_at _ _ _ _ (reach_log_ok fs0 port acts s h) hsp
  simp only [LogSeen.add, hlev, if_true, Bool.and_eq_true, Bool.not_eq_true'] at h0
  refine ⟨(logSeen_shut pre).mp h0.1.2, ?_⟩
  intro hmem
  have := (logSeen_exit pre).mpr hmem
  rw [h0.2] at this
  cases this

/-- The entry of line 80 comes after the entry of line 67 and after every
error entry of the log. -/
theorem exit_entry_place (fs0 : FileSystem) (port : String) (acts : List Act) (s : State)
    (h : exec (start fs0 port) acts = some s) (pre post : List LogEntry)
    (hsp : s.logs = pre ++ exitEntry :: post) :
    shuttingDownEntry ∈ pre ∧ ∀ e ∈ s.logs, e.level = .error → e ∈ pre := by
  have h0 := logSeen_ok_at _ _ _ _ (reach_log_ok fs0 port acts s h) hsp
  have hx : ¬ (exitEntry.level = .error) := by decide
  simp only [LogSeen.add, hx, if_false, if_true, Bool.and_eq_true] at h0
  refine ⟨(logSeen_shut pre).mp h0.2, ?_⟩
  intro e he hlev
  rw [hsp] at he
  rcases List.mem_append.mp he with he | he
  · exact he
  · rcases List.mem_cons.mp he with he | he
    · rw [he] at hlev; exact absurd hlev hx
    · obtain ⟨p1, p2, hp⟩ := List.append_of_mem he
      have hsp2 : s.logs = (pre ++ exitEntry :: p1) ++ e :: p2 := by
        rw [hsp, hp]; simp
      have := (error_entry_place fs0 port acts s h _ _ e hsp2 hlev).2
      exact absurd (by simp) this
/-! ## Startup: the storage root -/

/-- C4, as stated, fails: in storage where `./messages` is missing and may not
be created, `os.Mkdir` returns an error, and the process keeps running: the
server starts listening after the failure, accepts a send request, the handler
puts the message into the queue, and the write of that message fails because
the root is not there. -/
theorem mkdir_failure_fatal_counterexample :
    (exec (start deniedStorage "8080") (startupRun ++ sendOf sampleMessage ++ [.worker])).map
      (fun s => (s.status, s.fs.rootExists, s.events)) =
    some (.running, false,
      [.queueMade 10, .handlerBuilt, .serverSpawned, .mkdirDone false, .listening,
       .requestAccepted sampleMessage, .sendAccepted sampleMessage,
       .writeDone sampleMessage false]) := by
  decide

/-- C4, amended: a failure to create the storage root is not fatal.  When
`os.Mkdir` returns an error, `main` logs it at info level and goes on to wait
for the stop signal; the process keeps running, and the server goroutine, the
server, the queue and the storage location are left as they were; in a run of
`main`, a server goroutine that had not started serving yet still does so
afterwards, and the server then takes any request. -/
theorem mkdir_failure_logged_startup_continues (s : State) (err : String)
    (hrun : s.status = .running) (hpc : s.mainPc = .mkdir) (herr : s.fs.Mkdir = .error err) :
    ∃ s1, step s .main = some s1 ∧ s1.status = .running ∧ s1.mainPc = .awaitStop ∧
      s1.logs = s.logs ++ [⟨.info, "can not create messages dis", some err⟩] ∧
      s1.servePc = s.servePc ∧ s1.srv = s.srv ∧ s1.queues = s.queues ∧ s1.fs = s.fs ∧
      (∀ fs0 port acts, exec (start fs0 port) acts = some s →
        s.servePc = .logStarted ∨ s.servePc = .listen →
        ∃ sched s3 v, exec s1 sched = some s3 ∧ s3.status = .running ∧
          s3.mainPc = .awaitStop ∧ s3.servePc = .serving ∧ s3.srv = some v ∧
          v.listening = true ∧
          ∀ m, ∃ s4, step s3 (.accept m) = some s4 ∧ s4.status = .running ∧
            .requestAccepted m ∈ s4.events ∧ m ∈ s4.inflight) := by
  refine ⟨_, by simp only [step, hrun, stepMain, hpc, herr]; rfl, ?_⟩
  refine ⟨by simp [State.emit, State.Info, hrun], by simp [State.emit, State.Info],
    by simp [State.emit, State.Info], by simp [State.emit, State.Info],
    by simp [State.emit, State.Info], by simp [State.emit, State.Info],
    by simp [State.emit, State.Info], ?_⟩
  intro fs0 port acts h hsp
  obtain ⟨hi, -⟩ := reach_inv fs0 port acts s h
  have hr : s.mainPc.rank = 9 := by rw [hpc]; rfl
  have hsome := hi.server.mpr (by omega)
  have hidle := hi.shutdownIdle.mpr (by omega)
  cases hv : s.srv with
  | none => simp [hv] at hsome
  | some v =>
    have hns := hi.openServer (by rw [hidle]; rfl) v hv
    rcases hsp with hsp | hsp
    · refine ⟨[.serve none, .serve none], ?_⟩
      simp [exec, step, stepServe, stepAccept, State.emit, State.Info, hsp, hrun, hv, hns]
    · refine ⟨[.serve none], ?_⟩
      simp [exec, step, stepServe, stepAccept, State.emit, State.Info, hsp, hrun, hv, hns]

/-- Witness for C4: with the server goroutine spawned and `./messages` not
creatable, the `os.Mkdir` step of `main` leads to the wait for the stop
signal, and the server goroutine then starts serving and takes requests. -/
theorem mkdir_failure_logged_startup_continues_witness :
    ∃ s1, step beforeMkdirDenied .main = some s1 ∧
      s1.status = .running ∧ s1.mainPc = .awaitStop ∧
      ∃ sched s3 v, exec s1 sched = some s3 ∧ s3.status = .running ∧
        s3.mainPc = .awaitStop ∧ s3.servePc = .serving ∧ s3.srv = some v ∧
        v.listening = true ∧
        ∀ m, ∃ s4, step s3 (.accept m) = some s4 ∧ s4.status = .running ∧
          .requestAccepted m ∈ s4.events ∧ m ∈ s4.inflight :=
  let ⟨s1, h1, h2, h3, _, _, _, _, _, h9⟩ :=
    mkdir_failure_logged_startup_continues beforeMkdirDenied
      "mkdir ./messages: permission denied" (by decide) (by decide) rfl
  ⟨s1, h1, h2, h3, h9 deniedStorage "8080" untilServerSpawned (by decide) (by decide)⟩

/-- C5, as stated, fails: the server goroutine is spawned before `os.Mkdir`
runs, so it can start listening, accept a send request whose handler puts the
message into the queue, and have the worker try (and fail) to write the
message, all before the storage root is created. -/
theorem root_before_serving_counterexample :
    (exec (start freshStorage "8080")
        (untilServerSpawned ++ [.serve none, .serve none] ++ sendOf sampleMessage ++
          [.worker, .main])).map
      (fun s => (s.events, s.written, s.fs.rootExists)) =
    some ([.queueMade 10, .handlerBuilt, .serverSpawned, .listening,
       .requestAccepted sampleMessage, .sendAccepted sampleMessage,
       .writeDone sampleMessage false, .mkdirDone true],
      [], true) := by
  decide

/-- C5, amended: in every run the creation of the storage root is tried at
most once; it has been tried exactly once when `main` waits for the stop
signal or is past that; the stop signal is received only after the try; and
the root exists exactly when it existed at the start or the try succeeded. -/
theorem storage_root_tried_once_before_stop (fs0 : FileSystem) (port : String)
    (acts : List Act) (s : State) (h : exec (start fs0 port) acts = some s) :
    s.events.count (.mkdirDone true) + s.events.count (.mkdirDone false) ≤ 1 ∧
    (10 ≤ s.mainPc.rank →
      s.events.count (.mkdirDone true) + s.events.count (.mkdirDone false) = 1) ∧
    (∀ pre post, s.events = pre ++ .stopReceived :: post → ∃ ok, .mkdirDone ok ∈ pre) ∧
    (s.fs.rootExists = true ↔ (fs0.rootExists = true ∨ .mkdirDone true ∈ s.events)) := by
  obtain ⟨-, ht⟩ := reach_inv fs0 port acts s h
  have hm := seen_mkdirs s.events
  rw [ht.monitor] at hm
  simp only [expectedSeen] at hm
  refine ⟨?_, ?_, stop_after_mkdir fs0 port acts s h, ht.root⟩
  · rw [← hm]; split_ifs <;> omega
  · intro hr; rw [← hm, if_pos hr]

/-- Witness for C5: at the end of a whole run from fresh storage the creation
was tried once and the root exists. -/
theorem storage_root_tried_once_before_stop_witness :
    exec (start freshStorage "8080") gracefulRun = some (endOf gracefulRun) ∧
    (endOf gracefulRun).events.count (.mkdirDone true) +
      (endOf gracefulRun).events.count (.mkdirDone false) = 1 :=
  ⟨by decide,
   (storage_root_tried_once_before_stop freshStorage "8080" gracefulRun (endOf gracefulRun)
      (by decide)).2.1 (by decide)⟩
/-! ## Shutdown -/

/-- C7, as stated, fails: two runs in which the deadline passes before
`Shutdown` is done, one with one message left unwritten and one with two,
leave exactly the same log, which names the error of `Shutdown` and neither a
drained flag nor a count of lost messages. -/
theorem shutdown_reports_loss_counterexample :
    (exec (start freshStorage "8080") timedOutRunOne).map
      (fun s => (s.status, s.unwritten.length, s.written, s.logs)) =
      some (.returned, 1, [], timedOutLogs) ∧
    (exec (start freshStorage "8080") timedOutRun).map
      (fun s => (s.status, s.unwritten.length, s.written, s.logs)) =
      some (.returned, 2, [], timedOutLogs) := by
  decide

/-- C7, amended: what the shutdown path reports is the error of
`srv.Shutdown`, not the loss.  Every log entry has one of the five fixed
shapes of `main`; an error entry is always `failed to shutdown server` with an
error that `Shutdown` returned, and it comes after `Shutting down server...`
and before any `Server exited gracefully`; every `Server exited gracefully`
comes after all error entries; and when `main` has returned, the log holds the
error entry for every error `Shutdown` returned and, after it, `Server exited
gracefully`. -/
theorem shutdown_logs_error_only (fs0 : FileSystem) (port : String)
    (acts : List Act) (s : State) (h : exec (start fs0 port) acts = some s) :
    (∀ e ∈ s.logs, e.known s.port) ∧
    (∀ e ∈ s.logs, e.level = .error →
      ∃ err : HttpError, e = shutdownErrorEntry err ∧
        .shutdownReturned (some err) ∈ s.events) ∧
    (∀ pre e post, s.logs = pre ++ e :: post → e.level = .error →
      shuttingDownEntry ∈ pre ∧ exitEntry ∉ pre) ∧
    (∀ pre post, s.logs = pre ++ exitEntry :: post →
      shuttingDownEntry ∈ pre ∧ ∀ e ∈ s.logs, e.level = .error → e ∈ pre) ∧
    (s.status = .returned → ∀ err : HttpError, .shutdownReturned (some err) ∈ s.events →
      shutdownErrorEntry err ∈ s.logs) ∧
    (s.status = .returned → exitEntry ∈ s.logs) ∧
    (s.status = .returned → ∀ err : HttpError, .shutdownReturned (some err) ∈ s.events →
      ∃ pre post, s.logs = pre ++ exitEntry :: post ∧ shutdownErrorEntry err ∈ pre) := by
  obtain ⟨hi, ht⟩ := reach_inv fs0 port acts s h
  have hdone : s.status = .returned → s.shutdownPc = .done := by
    intro hret
    have hpc := hi.exitStatus.mp hret
    exact hi.joined (by rw [hpc]; decide)
  have herr : s.status = .returned → ∀ err : HttpError,
      .shutdownReturned (some err) ∈ s.events → shutdownErrorEntry err ∈ s.logs := by
    intro hret err hmem
    rcases ht.errorPending err hmem with h0 | h0
    · rw [hdone hret] at h0; cases h0
    · exact h0
  have hexit : s.status = .returned → exitEntry ∈ s.logs :=
    fun hret => ht.exitLogged (Or.inr (hdone hret))
  refine ⟨ht.knownLogs, ht.errorLogged,
    fun pre e post => error_entry_place fs0 port acts s h pre post e,
    exit_entry_place fs0 port acts s h, herr, hexit, ?_⟩
  intro hret err hmem
  obtain ⟨pre, post, hsp⟩ := List.append_of_mem (hexit hret)
  exact ⟨pre, post, hsp,
    (exit_entry_place fs0 port acts s h pre post hsp).2 _ (herr hret err hmem) rfl⟩

/-- Witness for C7: the run with two unwritten messages and a deadline that
passes ends with the error of `Shutdown` in the log, before the last entry. -/
theorem shutdown_logs_error_only_witness :
    exec (start freshStorage "8080") timedOutRun = some (endOf timedOutRun) ∧
    (endOf timedOutRun).status = .returned ∧
    shutdownErrorEntry .DeadlineExceeded ∈ (endOf timedOutRun).logs ∧
    ∃ pre post, (endOf timedOutRun).logs = pre ++ exitEntry :: post ∧
      shutdownErrorEntry .DeadlineExceeded ∈ pre :=
  have h := shutdown_logs_error_only freshStorage "8080" timedOutRun (endOf timedOutRun)
    (by decide)
  ⟨by decide, by decide, h.2.2.2.2.1 (by decide) .DeadlineExceeded (by decide),
   h.2.2.2.2.2.2 (by decide) .DeadlineExceeded (by decide)⟩

end Chatroom
